import Mathlib

/-!
Verification development for the `aim` credential-resolution and OAuth-refresh
subsystem (Go package `internal/providers`).

Shallow embedding conventions:
* Go strings are Lean `String`s; where character-level reasoning is needed
  (JWT decoding) the embedding works on `List Char`.
* Byte slices are `List Nat` with every element `< 256`.
* JSON documents are modelled at the value level by the inductive `Json`;
  a credential file's on-disk bytes are a `FileData`, which is either a
  parsed JSON value or `.text` for content that is not valid JSON.
  JSON numbers are modelled as rationals (Go decodes them as `float64`).
* The filesystem seen by the credential updater is an association list from
  paths to files; the filesystem seen by the loaders is a record holding the
  listing of `~/.cli-proxy-api` and the two fixed native credential files.
* HTTP exchanges are modelled by oracle values describing the outcome the
  `net/http` client would produce; wall-clock timestamps are passed in as
  already-formatted strings.
* `time.Parse` (RFC3339) is abstracted: fields that hold parsed timestamps
  keep the raw string (constructor `GoTime.parsed`); no verified claim
  depends on which strings the Go time parser accepts.
-/

namespace Aim

/-- JSON values, as produced by Go `encoding/json` unmarshalling into
`map[string]any` / `[]any` / `string` / `float64` / `bool` / `nil`.
Objects are association lists with distinct keys. -/
inductive Json where
  | null : Json
  | bool (b : Bool) : Json
  | num (q : Rat) : Json
  | str (s : String) : Json
  | arr (xs : List Json) : Json
  | obj (fields : List (String × Json)) : Json
deriving BEq, Repr, Inhabited

/-- A Go `map[string]any` obtained from JSON unmarshalling. -/
abbrev JObj := List (String × Json)

/-- Map lookup (`raw[key]`). -/
def JObj.get (m : JObj) (k : String) : Option Json :=
  match m with
  | [] => none
  | (k2, v) :: rest => if k2 = k then some v else JObj.get rest k

/-- Map update (`raw[key] = v`): replace an existing binding or append. -/
def JObj.set (m : JObj) (k : String) (v : Json) : JObj :=
  match m with
  | [] => [(k, v)]
  | (k2, v2) :: rest => if k2 = k then (k2, v) :: rest else (k2, v2) :: JObj.set rest k v

theorem JObj.get_set_self (m : JObj) (k : String) (v : Json) :
    JObj.get (JObj.set m k v) k = some v := by
  induction m with
  | nil => simp [JObj.set, JObj.get]
  | cons p rest ih =>
    obtain ⟨k2, v2⟩ := p
    by_cases h : k2 = k <;> simp [JObj.set, JObj.get, h, ih]

theorem JObj.get_set_ne (m : JObj) (k k2 : String) (v : Json) (h : k2 ≠ k) :
    JObj.get (JObj.set m k v) k2 = JObj.get m k2 := by
  have hks : ¬ k = k2 := fun hh => h hh.symm
  induction m with
  | nil => simp [JObj.set, JObj.get, hks]
  | cons p rest ih =>
    obtain ⟨k3, v3⟩ := p
    by_cases h3 : k3 = k
    · subst h3
      simp [JObj.set, JObj.get, hks]
    · by_cases h4 : k3 = k2 <;> simp [JObj.set, JObj.get, h3, h4, h, ih]

/-- Content of a file: a JSON document, or raw text that fails JSON parsing. -/
inductive FileData where
  | json (j : Json) : FileData
  | text (s : String) : FileData
deriving BEq, Repr, Inhabited

/-- A file: its content and its permission bits (`os.FileMode.Perm`). -/
structure GoFile where
  data : FileData
  mode : Nat
deriving BEq, Repr, Inhabited

/-- The flat filesystem used by the credential updater: path to file. -/
abbrev FSm := List (String × GoFile)

def fsGet (fs : FSm) (path : String) : Option GoFile :=
  match fs with
  | [] => none
  | (p, f) :: rest => if p = path then some f else fsGet rest path

/-- Create or overwrite a file (semantics of a completed write/rename). -/
def fsSet (fs : FSm) (path : String) (f : GoFile) : FSm :=
  match fs with
  | [] => [(path, f)]
  | (p, g) :: rest => if p = path then (p, f) :: rest else (p, g) :: fsSet rest path f

/-- Remove a file (`os.Remove`); removing a missing path is a no-op here,
matching the ignored error of the deferred remove. -/
def fsDel (fs : FSm) (path : String) : FSm :=
  match fs with
  | [] => []
  | (p, g) :: rest => if p = path then fsDel rest path else (p, g) :: fsDel rest path

theorem fsGet_fsSet_self (fs : FSm) (path : String) (f : GoFile) :
    fsGet (fsSet fs path f) path = some f := by
  induction fs with
  | nil => simp [fsSet, fsGet]
  | cons p rest ih =>
    obtain ⟨q, g⟩ := p
    by_cases h : q = path <;> simp [fsSet, fsGet, h, ih]

theorem fsGet_fsSet_ne (fs : FSm) (path p2 : String) (f : GoFile) (h : p2 ≠ path) :
    fsGet (fsSet fs path f) p2 = fsGet fs p2 := by
  have hps : ¬ path = p2 := fun hh => h hh.symm
  induction fs with
  | nil => simp [fsSet, fsGet, hps]
  | cons p rest ih =>
    obtain ⟨q, g⟩ := p
    by_cases h3 : q = path
    · subst h3
      simp [fsSet, fsGet, hps]
    · by_cases h4 : q = p2 <;> simp [fsSet, fsGet, h3, h4, h, ih]

theorem fsGet_fsDel_ne (fs : FSm) (path p2 : String) (h : p2 ≠ path) :
    fsGet (fsDel fs path) p2 = fsGet fs p2 := by
  have hps : ¬ path = p2 := fun hh => h hh.symm
  induction fs with
  | nil => simp [fsDel, fsGet]
  | cons p rest ih =>
    obtain ⟨q, g⟩ := p
    by_cases h3 : q = path
    · subst h3
      simp [fsDel, fsGet, hps, ih]
    · by_cases h4 : q = p2 <;> simp [fsDel, fsGet, h3, h4, h, ih]

theorem fsGet_fsDel_self (fs : FSm) (path : String) :
    fsGet (fsDel fs path) path = none := by
  induction fs with
  | nil => simp [fsDel, fsGet]
  | cons p rest ih =>
    obtain ⟨q, g⟩ := p
    by_cases h3 : q = path <;> simp [fsDel, fsGet, h3, ih]

/-! ## `strings.Split` on a single-character separator -/

/-- `strings.Split(s, sep)` for a one-character separator, on char lists.
Always returns at least one (possibly empty) part. -/
def splitChar (sep : Char) : List Char → List (List Char)
  | [] => [[]]
  | c :: rest =>
    match splitChar sep rest with
    | [] => [[]]
    | t :: ts => if c = sep then [] :: t :: ts else (c :: t) :: ts

theorem splitChar_ne_nil (sep : Char) (cs : List Char) : splitChar sep cs ≠ [] := by
  cases cs with
  | nil => simp [splitChar]
  | cons c rest =>
    simp only [splitChar]
    cases splitChar sep rest with
    | nil => simp
    | cons t ts =>
      by_cases h : c = sep <;> simp [h]

/-- A separator-free list splits into a single part. -/
theorem splitChar_of_not_mem (sep : Char) (cs : List Char) (h : sep ∉ cs) :
    splitChar sep cs = [cs] := by
  induction cs with
  | nil => rfl
  | cons c rest ih =>
    have hc : ¬ c = sep := fun hh => h (by simp [hh])
    have hr : sep ∉ rest := fun hh => h (by simp [hh])
    simp [splitChar, ih hr, hc]

/-- Splitting at an explicit separator after a separator-free head. -/
theorem splitChar_append (sep : Char) (h p : List Char) (hh : sep ∉ h) :
    splitChar sep (h ++ sep :: p) = h :: splitChar sep p := by
  induction h with
  | nil =>
    simp only [List.nil_append, splitChar]
    have := splitChar_ne_nil sep p
    cases hsp : splitChar sep p with
    | nil => exact absurd hsp this
    | cons t ts => simp
  | cons c rest ih =>
    have hc : ¬ c = sep := fun hx => hh (by simp [hx])
    have hr : sep ∉ rest := fun hx => hh (by simp [hx])
    simp only [List.cons_append, splitChar, List.append_eq, ih hr, hc, if_false]

/-! ## Base64url decoding (`encoding/base64`)

`base64.RawURLEncoding.DecodeString` (unpadded) and
`base64.URLEncoding.DecodeString` (padded), in Go's default non-strict mode
(trailing sextet bits are ignored, as Go does without `.Strict()`). -/

/-- Index of a character in the base64url alphabet. -/
def b64Index (c : Char) : Option Nat :=
  if 'A' ≤ c ∧ c ≤ 'Z' then some (c.toNat - 65)
  else if 'a' ≤ c ∧ c ≤ 'z' then some (c.toNat - 97 + 26)
  else if '0' ≤ c ∧ c ≤ '9' then some (c.toNat - 48 + 52)
  else if c = '-' then some 62
  else if c = '_' then some 63
  else none

theorem b64Index_ne_eq (c : Char) (n : Nat) (h : b64Index c = some n) : c ≠ '=' := by
  intro hc
  subst hc
  have hnone : b64Index '=' = none := by decide
  rw [hnone] at h
  exact Option.noConfusion h

/-- Decode an unpadded base64url string (`RawURLEncoding.DecodeString`).
Fails on any character outside the alphabet or on length ≡ 1 (mod 4). -/
def decodeRawChars : List Char → Option (List Nat)
  | [] => some []
  | [_] => none
  | [c1, c2] => do
    let i1 ← b64Index c1
    let i2 ← b64Index c2
    some [i1 * 4 + i2 / 16]
  | [c1, c2, c3] => do
    let i1 ← b64Index c1
    let i2 ← b64Index c2
    let i3 ← b64Index c3
    some [i1 * 4 + i2 / 16, (i2 % 16) * 16 + i3 / 4]
  | c1 :: c2 :: c3 :: c4 :: rest => do
    let i1 ← b64Index c1
    let i2 ← b64Index c2
    let i3 ← b64Index c3
    let i4 ← b64Index c4
    let tail ← decodeRawChars rest
    some ((i1 * 4 + i2 / 16) :: ((i2 % 16) * 16 + i3 / 4) :: ((i3 % 4) * 64 + i4) :: tail)

/-- Decode a padded base64url string (`URLEncoding.DecodeString`).
Length must be a multiple of 4; `=` may appear only as final padding. -/
def decodePadChars : List Char → Option (List Nat)
  | [] => some []
  | c1 :: c2 :: c3 :: c4 :: rest =>
    if c3 = '=' then
      if c4 = '=' ∧ rest = [] then do
        let i1 ← b64Index c1
        let i2 ← b64Index c2
        some [i1 * 4 + i2 / 16]
      else none
    else if c4 = '=' then
      if rest = [] then do
        let i1 ← b64Index c1
        let i2 ← b64Index c2
        let i3 ← b64Index c3
        some [i1 * 4 + i2 / 16, (i2 % 16) * 16 + i3 / 4]
      else none
    else do
      let i1 ← b64Index c1
      let i2 ← b64Index c2
      let i3 ← b64Index c3
      let i4 ← b64Index c4
      let tail ← decodePadChars rest
      some ((i1 * 4 + i2 / 16) :: ((i2 % 16) * 16 + i3 / 4) :: ((i3 % 4) * 64 + i4) :: tail)
  | _ => none

/-- The padding `strings.Repeat("=", (4-len(payload)%4)%4)` appended by
`decodeJWTClaims` before falling back to padded decoding. -/
def b64Padding (n : Nat) : List Char := List.replicate ((4 - n % 4) % 4) '='

/-- Unpadded decoding fails whenever the input contains a character outside
the base64url alphabet. -/
theorem decodeRawChars_none_of_mem (c : Char) (hc : b64Index c = none) :
    ∀ (cs : List Char), c ∈ cs → decodeRawChars cs = none := by
  intro cs
  induction cs using decodeRawChars.induct with
  | case1 =>
    intro h
    simp at h
  | case2 c1 =>
    intro h
    rfl
  | case3 c1 c2 =>
    intro h
    simp only [List.mem_cons, List.not_mem_nil, or_false] at h
    rcases h with rfl | rfl
    · simp [decodeRawChars, hc]
    · cases b64Index c1 <;> simp [decodeRawChars, hc]
  | case4 c1 c2 c3 =>
    intro h
    simp only [List.mem_cons, List.not_mem_nil, or_false] at h
    rcases h with rfl | rfl | rfl
    · simp [decodeRawChars, hc]
    · cases b64Index c1 <;> simp [decodeRawChars, hc]
    · cases b64Index c1 <;> cases b64Index c2 <;> simp [decodeRawChars, hc]
  | case5 c1 c2 c3 c4 rest ih =>
    intro h
    simp only [List.mem_cons] at h
    rcases h with rfl | rfl | rfl | rfl | h
    · simp [decodeRawChars, hc]
    · cases b64Index c1 <;> simp [decodeRawChars, hc]
    · cases b64Index c1 <;> cases b64Index c2 <;> simp [decodeRawChars, hc]
    · cases b64Index c1 <;> cases b64Index c2 <;> cases b64Index c3 <;>
        simp [decodeRawChars, hc]
    · cases h1 : b64Index c1 <;> cases h2 : b64Index c2 <;>
        cases h3 : b64Index c3 <;> cases h4 : b64Index c4 <;>
        simp [decodeRawChars, h1, h2, h3, h4, ih h]

/-- Appending the canonical padding turns a valid unpadded input into a valid
padded input decoding to the same bytes. -/
theorem decodePadChars_append_padding (cs : List Char) (bs : List Nat)
    (h : decodeRawChars cs = some bs) :
    decodePadChars (cs ++ b64Padding cs.length) = some bs := by
  induction cs using decodeRawChars.induct generalizing bs with
  | case1 =>
    simp [decodeRawChars] at h
    simp [b64Padding, decodePadChars, ← h]
  | case2 c1 => simp [decodeRawChars] at h
  | case3 c1 c2 =>
    cases h1 : b64Index c1 with
    | none => simp [decodeRawChars, h1] at h
    | some i1 =>
      cases h2 : b64Index c2 with
      | none => simp [decodeRawChars, h1, h2] at h
      | some i2 =>
        simp [decodeRawChars, h1, h2] at h
        simp [b64Padding, decodePadChars, h1, h2, List.replicate, ← h]
  | case4 c1 c2 c3 =>
    cases h1 : b64Index c1 with
    | none => simp [decodeRawChars, h1] at h
    | some i1 =>
      cases h2 : b64Index c2 with
      | none => simp [decodeRawChars, h1, h2] at h
      | some i2 =>
        cases h3 : b64Index c3 with
        | none => simp [decodeRawChars, h1, h2, h3] at h
        | some i3 =>
          simp [decodeRawChars, h1, h2, h3] at h
          simp [b64Padding, decodePadChars, h1, h2, h3, List.replicate,
            b64Index_ne_eq c3 i3 h3, ← h]
  | case5 c1 c2 c3 c4 rest ih =>
    cases h1 : b64Index c1 with
    | none => simp [decodeRawChars, h1] at h
    | some i1 =>
      cases h2 : b64Index c2 with
      | none => simp [decodeRawChars, h1, h2] at h
      | some i2 =>
        cases h3 : b64Index c3 with
        | none => simp [decodeRawChars, h1, h2, h3] at h
        | some i3 =>
          cases h4 : b64Index c4 with
          | none => simp [decodeRawChars, h1, h2, h3, h4] at h
          | some i4 =>
            cases htail : decodeRawChars rest with
            | none => simp [decodeRawChars, h1, h2, h3, h4, htail] at h
            | some tail =>
              simp [decodeRawChars, h1, h2, h3, h4, htail] at h
              have hpad : b64Padding (c1 :: c2 :: c3 :: c4 :: rest).length
                  = b64Padding rest.length := by
                simp only [b64Padding, List.length_cons]
                congr 1
                omega
              rw [hpad]
              simp [decodePadChars, b64Index_ne_eq c3 i3 h3, b64Index_ne_eq c4 i4 h4,
                h1, h2, h3, h4, ih tail htail, ← h]

/-! ## Byte-level JSON parsing (`encoding/json.Unmarshal`)

A fuel-indexed recursive-descent parser modelling `json.Unmarshal` on the
JSON subset this program's payloads use. Deviations from the full standard
(numbers with exponents are rejected; string contents are handled at the
Latin-1 char level) do not affect any verified claim: the claims either hold
for an arbitrary parse function of the decoded bytes, or evaluate the parser
on plain ASCII object payloads. -/

def isJsonWs (c : Char) : Bool :=
  c = ' ' ∨ c = '\t' ∨ c = '\n' ∨ c = '\r'

def skipWs : List Char → List Char
  | [] => []
  | c :: rest => if isJsonWs c then skipWs rest else c :: rest

def hexVal (c : Char) : Option Nat :=
  if '0' ≤ c ∧ c ≤ '9' then some (c.toNat - 48)
  else if 'a' ≤ c ∧ c ≤ 'f' then some (c.toNat - 97 + 10)
  else if 'A' ≤ c ∧ c ≤ 'F' then some (c.toNat - 65 + 10)
  else none

/-- Parse the body of a JSON string after the opening quote. -/
def parseStringBody : Nat → List Char → Option (List Char × List Char)
  | 0, _ => none
  | _, [] => none
  | fuel + 1, c :: rest =>
    if c = '"' then some ([], rest)
    else if c = '\\' then
      match rest with
      | [] => none
      | e :: rest2 =>
        let esc : Option (Char × List Char) :=
          if e = '"' then some ('"', rest2)
          else if e = '\\' then some ('\\', rest2)
          else if e = '/' then some ('/', rest2)
          else if e = 'n' then some ('\n', rest2)
          else if e = 't' then some ('\t', rest2)
          else if e = 'r' then some ('\r', rest2)
          else if e = 'b' then some (Char.ofNat 8, rest2)
          else if e = 'f' then some (Char.ofNat 12, rest2)
          else if e = 'u' then
            match rest2 with
            | h1 :: h2 :: h3 :: h4 :: rest3 => do
              let v1 ← hexVal h1
              let v2 ← hexVal h2
              let v3 ← hexVal h3
              let v4 ← hexVal h4
              some (Char.ofNat (((v1 * 16 + v2) * 16 + v3) * 16 + v4), rest3)
            | _ => none
          else none
        match esc with
        | none => none
        | some (ch, rest3) => do
          let (s, rest4) ← parseStringBody fuel rest3
          some (ch :: s, rest4)
    else do
      let (s, rest2) ← parseStringBody fuel rest
      some (c :: s, rest2)

/-- Longest leading run of decimal digits and its value. -/
def parseDigits : List Char → Option (Nat × Nat × List Char)
  | cs =>
    let digs := cs.takeWhile (fun c => '0' ≤ c ∧ c ≤ '9')
    if digs = [] then none
    else some (digs.foldl (fun a c => a * 10 + (c.toNat - 48)) 0, digs.length, cs.drop digs.length)

/-- Parse a JSON number (integer or decimal fraction; exponents rejected). -/
def parseNumber (cs : List Char) : Option (Rat × List Char) := do
  let (neg, cs1) := match cs with
    | '-' :: rest => (true, rest)
    | _ => (false, cs)
  let (ip, _, cs2) ← parseDigits cs1
  let (q, cs3) ← match cs2 with
    | '.' :: rest => do
      let (fp, flen, cs3) ← parseDigits rest
      pure ((ip : Rat) + (fp : Rat) / ((10 : Rat) ^ flen), cs3)
    | _ => pure ((ip : Rat), cs2)
  match cs3 with
  | 'e' :: _ => none
  | 'E' :: _ => none
  | _ => some (if neg then -q else q, cs3)

mutual

/-- Parse one JSON value. -/
def parseJsonVal : Nat → List Char → Option (Json × List Char)
  | 0, _ => none
  | fuel + 1, cs =>
    match skipWs cs with
    | [] => none
    | c :: rest =>
      if c = '"' then do
        let (s, rest2) ← parseStringBody (rest.length + 1) rest
        some (.str (String.mk s), rest2)
      else if c = '{' then
        match skipWs rest with
        | '}' :: rest2 => some (.obj [], rest2)
        | _ => parseObjFields fuel rest []
      else if c = '[' then
        match skipWs rest with
        | ']' :: rest2 => some (.arr [], rest2)
        | _ => parseArrElems fuel rest []
      else if c = 't' then
        match rest with
        | 'r' :: 'u' :: 'e' :: rest2 => some (.bool true, rest2)
        | _ => none
      else if c = 'f' then
        match rest with
        | 'a' :: 'l' :: 's' :: 'e' :: rest2 => some (.bool false, rest2)
        | _ => none
      else if c = 'n' then
        match rest with
        | 'u' :: 'l' :: 'l' :: rest2 => some (.null, rest2)
        | _ => none
      else do
        let (q, rest2) ← parseNumber (c :: rest)
        some (.num q, rest2)

/-- Parse the members of an object (after `{`, at least one member).
Duplicate keys follow Go map semantics: the last occurrence wins. -/
def parseObjFields : Nat → List Char → JObj → Option (Json × List Char)
  | 0, _, _ => none
  | fuel + 1, cs, acc =>
    match skipWs cs with
    | '"' :: rest => do
      let (k, rest2) ← parseStringBody (rest.length + 1) rest
      match skipWs rest2 with
      | ':' :: rest3 => do
        let (v, rest4) ← parseJsonVal fuel rest3
        let acc2 := JObj.set acc (String.mk k) v
        match skipWs rest4 with
        | ',' :: rest5 => parseObjFields fuel rest5 acc2
        | '}' :: rest5 => some (.obj acc2, rest5)
        | _ => none
      | _ => none
    | _ => none

/-- Parse the elements of an array (after `[`, at least one element). -/
def parseArrElems : Nat → List Char → List Json → Option (Json × List Char)
  | 0, _, _ => none
  | fuel + 1, cs, acc => do
    let (v, rest) ← parseJsonVal fuel cs
    match skipWs rest with
    | ',' :: rest2 => parseArrElems fuel rest2 (acc ++ [v])
    | ']' :: rest2 => some (.arr (acc ++ [v]), rest2)
    | _ => none

end

/-- Bytes of the decoded payload as Latin-1 chars. -/
def bytesToChars (bs : List Nat) : List Char := bs.map (fun b => Char.ofNat b)

/-- `json.Unmarshal` of a byte slice into `any`, at the whole-document level. -/
def parseJsonBytes (bs : List Nat) : Option Json := do
  let cs := bytesToChars bs
  let (v, rest) ← parseJsonVal (cs.length + 1) cs
  if skipWs rest = [] then some v else none

/-- `json.Unmarshal` of a byte slice into `map[string]any`: the document must
be an object (or `null`, which leaves the map nil). -/
def parseJsonObjBytes (bs : List Nat) : Except String JObj :=
  match parseJsonBytes bs with
  | some (.obj fields) => .ok fields
  | some .null => .ok []
  | _ => .error "cannot unmarshal into map"

/-! ## `decodeJWTClaims` and claim-extraction helpers -/

/-- `decodeJWTClaims` over the token's characters: split on `.`, require at
least two segments, decode the second segment as unpadded base64url falling
back to padded base64url, and parse the result as a JSON object. -/
def decodeJWTClaimsChars (token : List Char) : Except String JObj :=
  match splitChar '.' token with
  | _ :: payload :: _ =>
    match decodeRawChars payload with
    | some decoded => parseJsonObjBytes decoded
    | none =>
      match decodePadChars (payload ++ b64Padding payload.length) with
      | some decoded => parseJsonObjBytes decoded
      | none => .error "illegal base64 data"
  | _ => .error "invalid token"

/-- `decodeJWTClaims` on a Go string. -/
def decodeJWTClaims (token : String) : Except String JObj :=
  decodeJWTClaimsChars token.data

/-! ## `unicode/utf8.DecodeRune` and `TruncateBody` (types.go) -/

/-- Length of the UTF-8 sequence announced by a first byte
(1 for ASCII, 0 for an invalid first byte). -/
def runeLen (b0 : Nat) : Nat :=
  if b0 < 0x80 then 1
  else if b0 < 0xC2 then 0
  else if b0 ≤ 0xDF then 2
  else if b0 ≤ 0xEF then 3
  else if b0 ≤ 0xF4 then 4
  else 0

/-- Lower bound of the accepted range for the second byte (Go's acceptRanges). -/
def acceptLo (b0 : Nat) : Nat :=
  if b0 = 0xE0 then 0xA0 else if b0 = 0xF0 then 0x90 else 0x80

/-- Upper bound of the accepted range for the second byte (Go's acceptRanges). -/
def acceptHi (b0 : Nat) : Nat :=
  if b0 = 0xED then 0x9F else if b0 = 0xF4 then 0x8F else 0xBF

/-- Is a continuation byte (`0x80..0xBF`)? -/
def isCont (b : Nat) : Bool := 0x80 ≤ b ∧ b ≤ 0xBF

/-- The continuation bytes of a multi-byte sequence check out. -/
def contOk (b0 : Nat) (tail : List Nat) : Bool :=
  match tail with
  | [] => false
  | b1 :: more => (acceptLo b0 ≤ b1 ∧ b1 ≤ acceptHi b0) ∧ more.all isCont

/-- The size returned by `utf8.DecodeRune`: the full sequence length for a
valid encoding, otherwise 1 (Go returns `RuneError, 1` for invalid or
truncated sequences, and ASCII bytes decode to themselves with size 1). -/
def decodeRuneSize (bs : List Nat) : Nat :=
  match bs with
  | [] => 0
  | b0 :: rest =>
    if runeLen b0 ≤ 1 then 1
    else if (rest.take (runeLen b0 - 1)).length = runeLen b0 - 1
            ∧ contOk b0 (rest.take (runeLen b0 - 1)) then runeLen b0
    else 1

/-- The first rune of `bs` is a well-formed UTF-8 encoding. -/
def decodeRuneOk (bs : List Nat) : Bool :=
  match bs with
  | [] => false
  | b0 :: _ => b0 < 0x80 ∨ 1 < decodeRuneSize bs

/-- The whole byte list is valid UTF-8 (a concatenation of well-formed runes). -/
def utf8Valid : List Nat → Bool
  | [] => true
  | b0 :: rest =>
    decodeRuneOk (b0 :: rest) && utf8Valid (rest.drop (decodeRuneSize (b0 :: rest) - 1))
termination_by bs => bs.length
decreasing_by
  simp only [List.length_cons, List.length_drop]
  omega

/-- The walk of `TruncateBody`: advance `end` by whole decoded-rune sizes
while staying within `maxLen`. The `size = 0` guard makes the function total;
it is unreachable at `TruncateBody`'s call site because there
`end < maxLen < len(body)` keeps the remaining slice non-empty. -/
def truncLoop (body : List Nat) (maxLen : Nat) (e : Nat) : Nat :=
  if e < maxLen then
    if decodeRuneSize (body.drop e) = 0 ∨ maxLen < e + decodeRuneSize (body.drop e) then e
    else truncLoop body maxLen (e + decodeRuneSize (body.drop e))
  else e
termination_by maxLen - e
decreasing_by
  rename_i he hs
  simp only [not_or, not_lt] at hs
  omega

/-- `TruncateBody(body, maxLen)`: the body unchanged when it fits, otherwise
a rune-boundary prefix of at most `maxLen` bytes followed by `"..."`
(the bytes `46, 46, 46`). -/
def TruncateBody (body : List Nat) (maxLen : Nat) : List Nat :=
  if body.length ≤ maxLen then body
  else body.take (truncLoop body maxLen 0) ++ [46, 46, 46]

theorem decodeRuneSize_pos (b0 : Nat) (rest : List Nat) :
    1 ≤ decodeRuneSize (b0 :: rest) := by
  rw [decodeRuneSize]
  split
  · omega
  · split
    · rename_i hn _
      omega
    · omega

/-- For a multi-byte size the announced length is realized by the bytes. -/
theorem decodeRuneSize_eq_runeLen (b0 : Nat) (rest : List Nat)
    (h : 1 < decodeRuneSize (b0 :: rest)) :
    decodeRuneSize (b0 :: rest) = runeLen b0
    ∧ (rest.take (runeLen b0 - 1)).length = runeLen b0 - 1
    ∧ contOk b0 (rest.take (runeLen b0 - 1)) = true := by
  rw [decodeRuneSize] at h ⊢
  split at h
  · omega
  · split at h
    · rename_i hn hok
      simpa [hn, hok.1, hok.2] using hok
    · omega

/-- Decoding the first rune only inspects the bytes of that rune:
a multi-byte rune decodes to the same size from its own bytes alone. -/
theorem decodeRuneSize_cons_take (b0 : Nat) (rest : List Nat)
    (h : 1 < decodeRuneSize (b0 :: rest)) :
    decodeRuneSize (b0 :: rest.take (runeLen b0 - 1)) = runeLen b0 := by
  obtain ⟨hs, hlen, hok⟩ := decodeRuneSize_eq_runeLen b0 rest h
  have hn : ¬ runeLen b0 ≤ 1 := by omega
  rw [decodeRuneSize]
  simp only [hn, if_false, List.take_take, min_self, hlen, hok, and_self, if_true]

/-- And the size is unchanged by appending further bytes. -/
theorem decodeRuneSize_cons_append (b0 : Nat) (rest m : List Nat)
    (h : 1 < decodeRuneSize (b0 :: rest)) :
    decodeRuneSize (b0 :: (rest ++ m)) = runeLen b0 := by
  obtain ⟨hs, hlen, hok⟩ := decodeRuneSize_eq_runeLen b0 rest h
  have hn : ¬ runeLen b0 ≤ 1 := by omega
  have hle : runeLen b0 - 1 ≤ rest.length := by
    rw [List.length_take] at hlen
    omega
  have htake : (rest ++ m).take (runeLen b0 - 1) = rest.take (runeLen b0 - 1) :=
    List.take_append_of_le_length hle
  rw [decodeRuneSize]
  simp only [hn, if_false, htake, hlen, hok, and_self, if_true]

theorem decodeRuneSize_ascii (b0 : Nat) (rest : List Nat) (h : b0 < 0x80) :
    decodeRuneSize (b0 :: rest) = 1 := by
  have hn : runeLen b0 ≤ 1 := by
    rw [runeLen]
    simp [h]
  rw [decodeRuneSize]
  simp [hn]

/-- Dropping in two stages. -/
theorem dropAdd (l : List Nat) (e s : Nat) : l.drop (e + s) = (l.drop e).drop s := by
  rw [List.drop_drop, Nat.add_comm]

/-- A valid first rune taken on its own is a valid byte list. -/
theorem utf8Valid_take_size (bs : List Nat) (hne : bs ≠ [])
    (hok : decodeRuneOk bs = true) :
    utf8Valid (bs.take (decodeRuneSize bs)) = true := by
  match bs with
  | [] => exact absurd rfl hne
  | b0 :: rest =>
    rw [decodeRuneOk] at hok
    simp only [decide_eq_true_eq] at hok
    by_cases hsz : 1 < decodeRuneSize (b0 :: rest)
    · obtain ⟨hs, hlen, hco⟩ := decodeRuneSize_eq_runeLen b0 rest hsz
      have hsz2 : decodeRuneSize (b0 :: rest.take (runeLen b0 - 1)) = runeLen b0 :=
        decodeRuneSize_cons_take b0 rest hsz
      have hokt : decodeRuneOk (b0 :: rest.take (runeLen b0 - 1)) = true := by
        rw [decodeRuneOk]
        simp only [decide_eq_true_eq, hsz2]
        omega
      obtain ⟨k, hk⟩ : ∃ k, runeLen b0 = k + 1 := ⟨runeLen b0 - 1, by omega⟩
      have hk1 : k = runeLen b0 - 1 := by omega
      rw [hs, hk, List.take_succ_cons, hk1]
      rw [utf8Valid, hokt, hsz2]
      simp only [Bool.true_and]
      rw [List.drop_eq_nil_of_le (le_of_eq hlen)]
      rw [utf8Valid]
    · have hascii : b0 < 0x80 := by
        rcases hok with h | h
        · exact h
        · exact absurd h hsz
      rw [decodeRuneSize_ascii b0 rest hascii]
      rw [List.take_succ_cons, List.take_zero]
      have hs1 : decodeRuneSize [b0] = 1 := decodeRuneSize_ascii b0 [] hascii
      rw [utf8Valid]
      rw [decodeRuneOk]
      simp [hascii, hs1, utf8Valid]

/-- Concatenating valid UTF-8 byte lists yields a valid byte list. -/
theorem utf8Valid_append (a b : List Nat) (ha : utf8Valid a = true)
    (hb : utf8Valid b = true) : utf8Valid (a ++ b) = true := by
  induction a using utf8Valid.induct with
  | case1 => simpa using hb
  | case2 b0 rest ih =>
    rw [utf8Valid] at ha
    simp only [Bool.and_eq_true] at ha
    obtain ⟨hok, hrest⟩ := ha
    have hres := ih hrest
    by_cases hsz : 1 < decodeRuneSize (b0 :: rest)
    · obtain ⟨hs, hlen, hco⟩ := decodeRuneSize_eq_runeLen b0 rest hsz
      have hle : runeLen b0 - 1 ≤ rest.length := by
        rw [List.length_take] at hlen
        omega
      have hszap : decodeRuneSize (b0 :: (rest ++ b)) = runeLen b0 :=
        decodeRuneSize_cons_append b0 rest b hsz
      rw [List.cons_append, utf8Valid]
      have hokap : decodeRuneOk (b0 :: (rest ++ b)) = true := by
        rw [decodeRuneOk]
        simp only [decide_eq_true_eq, hszap]
        omega
      rw [hokap, hszap]
      simp only [Bool.true_and]
      rw [List.drop_append_of_le_length hle]
      rw [hs] at hres
      exact hres
    · have hascii : b0 < 0x80 := by
        rw [decodeRuneOk] at hok
        simp only [decide_eq_true_eq] at hok
        rcases hok with h | h
        · exact h
        · exact absurd h hsz
      have hszap : decodeRuneSize (b0 :: (rest ++ b)) = 1 :=
        decodeRuneSize_ascii b0 (rest ++ b) hascii
      rw [List.cons_append, utf8Valid]
      have hokap : decodeRuneOk (b0 :: (rest ++ b)) = true := by
        rw [decodeRuneOk]
        simp [hascii]
      rw [hokap, hszap]
      simp only [Bool.true_and, Nat.sub_self, List.drop_zero]
      have hs1 : decodeRuneSize (b0 :: rest) = 1 := decodeRuneSize_ascii b0 rest hascii
      rw [hs1] at hres
      simpa using hres

/-- The walk never passes `maxLen`. -/
theorem truncLoop_le (body : List Nat) (maxLen : Nat) :
    ∀ e, e ≤ maxLen → truncLoop body maxLen e ≤ maxLen := by
  intro e
  induction e using truncLoop.induct body maxLen with
  | case1 e he hs =>
    intro _
    rw [truncLoop, if_pos he, if_pos hs]
    omega
  | case2 e he hs ih =>
    intro _
    rw [truncLoop, if_pos he, if_neg hs]
    simp only [not_or, not_lt] at hs
    exact ih hs.2
  | case3 e he =>
    intro h
    rw [truncLoop, if_neg he]
    exact h

/-- Invariant of the truncation walk: starting from a rune boundary of a
valid body, the walk ends at a rune boundary. -/
theorem truncLoop_valid (body : List Nat) (maxLen : Nat) (hml : maxLen < body.length) :
    ∀ e, e ≤ maxLen → utf8Valid (body.take e) = true → utf8Valid (body.drop e) = true →
      utf8Valid (body.take (truncLoop body maxLen e)) = true := by
  intro e
  induction e using truncLoop.induct body maxLen with
  | case1 e he hs =>
    intro hle htake hdrop
    rw [truncLoop, if_pos he, if_pos hs]
    exact htake
  | case2 e he hs ih =>
    intro hle htake hdrop
    rw [truncLoop, if_pos he, if_neg hs]
    simp only [not_or, not_lt] at hs
    obtain ⟨hs0, hsle⟩ := hs
    have hdlen : 0 < (body.drop e).length := by
      rw [List.length_drop]
      omega
    obtain ⟨b0, rest, hcons⟩ : ∃ b0 rest, body.drop e = b0 :: rest := by
      cases hd : body.drop e with
      | nil => rw [hd] at hdlen; simp at hdlen
      | cons x xs => exact ⟨x, xs, rfl⟩
    have hdrop2 := hdrop
    rw [hcons, utf8Valid] at hdrop2
    simp only [Bool.and_eq_true] at hdrop2
    obtain ⟨hok, hnext⟩ := hdrop2
    have hpos : 1 ≤ decodeRuneSize (b0 :: rest) := decodeRuneSize_pos b0 rest
    have htake2 : utf8Valid (body.take (e + decodeRuneSize (body.drop e))) = true := by
      rw [List.take_add]
      apply utf8Valid_append _ _ htake
      rw [hcons]
      exact utf8Valid_take_size (b0 :: rest) (by simp) hok
    have hdrop3 : utf8Valid (body.drop (e + decodeRuneSize (body.drop e))) = true := by
      have harith : body.drop (e + decodeRuneSize (body.drop e))
          = rest.drop (decodeRuneSize (b0 :: rest) - 1) := by
        rw [dropAdd, hcons]
        obtain ⟨k, hk⟩ : ∃ k, decodeRuneSize (b0 :: rest) = k + 1 :=
          ⟨decodeRuneSize (b0 :: rest) - 1, by omega⟩
        rw [hk, List.drop_succ_cons]
        simp
      rw [harith]
      exact hnext
    exact ih hsle htake2 hdrop3
  | case3 e he =>
    intro hle htake hdrop
    rw [truncLoop, if_neg he]
    exact htake

/-! ## Credential-source detection and account loading

The loader-facing filesystem: the listing of `~/.cli-proxy-api` (basenames
with contents, in directory order) and the two fixed native credential
files. `filepath.Join` is modelled by plain `/`-concatenation. -/

structure FS where
  proxy : List (String × FileData)
  codexAuth : Option FileData
  claudeCreds : Option FileData
deriving Inhabited

def lookupProxy (files : List (String × FileData)) (name : String) : Option FileData :=
  match files with
  | [] => none
  | (n, fd) :: rest => if n = name then some fd else lookupProxy rest name

/-- `filepath.Glob` match for a `pre*​.json` basename pattern (`*` matches any
run of non-separator characters, including the empty run). String operations
are performed on the character lists so that they evaluate inside proofs. -/
def matchGlob (pre : String) (name : String) : Bool :=
  List.isPrefixOf pre.data name.data
    && List.isSuffixOf ['.', 'j', 's', 'o', 'n'] name.data
    && pre.data.length + 5 ≤ name.data.length

/-- Insertion into a sorted list of strings. -/
def insertSorted (x : String) : List String → List String
  | [] => [x]
  | y :: rest => if x ≤ y then x :: y :: rest else y :: insertSorted x rest

/-- Lexicographic string sort (the order `sort.Strings` establishes),
implemented by insertion so that it reduces inside proofs. -/
def sortStrings (l : List String) : List String := l.foldr insertSorted []

/-- The basenames matched by a `pre*​.json` glob, in the sorted order
`filepath.Glob` (and the loaders' extra `sort.Strings`) produce. -/
def globProxy (files : List (String × FileData)) (pre : String) : List String :=
  sortStrings ((files.map Prod.fst).filter (fun n => matchGlob pre n))

/-- `CredentialSource`: where credentials are loaded from. -/
inductive CredentialSource where
  | sourceProxy : CredentialSource
  | sourceNative : CredentialSource
deriving DecidableEq, Repr

/-- `DetectCredentialSource`: empty home short-circuits to native; otherwise
a match for any vendor's proxy pattern in `~/.cli-proxy-api` yields proxy. -/
def DetectCredentialSource (homeDir : String) (fs : FS) : CredentialSource :=
  if homeDir = "" then .sourceNative
  else if fs.proxy.any (fun p => matchGlob "claude-" p.1)
       || fs.proxy.any (fun p => matchGlob "codex-" p.1)
       || fs.proxy.any (fun p => matchGlob "gemini-" p.1)
  then .sourceProxy
  else .sourceNative

/-- `time.Time` values: the zero value, an epoch instant, or the result of
parsing a textual timestamp (the RFC3339 grammar itself is abstracted; no
verified claim depends on it). -/
inductive GoTime where
  | zero : GoTime
  | unix (sec : Int) : GoTime
  | unixMilli (ms : Int) : GoTime
  | parsed (raw : String) : GoTime
deriving BEq, Repr, Inhabited

/-- Go `int64(f)` on a JSON number: truncation toward zero. -/
def goInt64 (q : Rat) : Int := if q < 0 then -((-q).floor) else q.floor

/-- `parseCodexTime`: empty input yields the zero time; otherwise the parsed
timestamp (parse failures, which also yield the zero value in Go, are
collapsed into `.parsed` — see the module comment). -/
def parseCodexTime (value : String) : GoTime :=
  if value = "" then .zero else .parsed value

/-- `strings.TrimPrefix`. -/
def strTrimPrefix (s pre : String) : String :=
  if List.isPrefixOf pre.data s.data then String.mk (s.data.drop pre.data.length) else s

/-- `strings.TrimSuffix`. -/
def strTrimSuffix (s suf : String) : String :=
  if List.isSuffixOf suf.data s.data then
    String.mk (s.data.take (s.data.length - suf.data.length))
  else s

/-- `extractEmailFromFilename`: strip the `codex-` prefix and `.json` suffix. -/
def extractEmailFromFilename (filename : String) : String :=
  strTrimSuffix (strTrimPrefix filename "codex-") ".json"

/-- `extractClaudeEmailFromFilename`. -/
def extractClaudeEmailFromFilename (filename : String) : String :=
  strTrimSuffix (strTrimPrefix filename "claude-") ".json"

def shortID (value : String) : String :=
  if value.data.length ≤ 6 then value else String.mk (value.data.take 6)

def proxyPath (homeDir name : String) : String :=
  homeDir ++ "/.cli-proxy-api/" ++ name

/-! ### JWT claim extraction helpers -/

def codexDefaultClientID : String := "app_EMoamEEZ73f0CkXaXp7hrann"

def firstNonEmptyString : List Json → String
  | [] => ""
  | .str s :: rest => if s ≠ "" then s else firstNonEmptyString rest
  | _ :: rest => firstNonEmptyString rest

/-- The `aud` fallback of `extractClientID`. -/
def extractAud (claims : JObj) : String :=
  match JObj.get claims "aud" with
  | some (.str t) => t
  | some (.arr items) => firstNonEmptyString items
  | _ => ""

/-- `extractClientID`: prefer an explicit non-empty `client_id` claim, then
fall back to `aud`. -/
def extractClientID (claims : JObj) : String :=
  match JObj.get claims "client_id" with
  | some (.str v) => if v ≠ "" then v else extractAud claims
  | _ => extractAud claims

/-- ASCII whitespace, as `unicode.IsSpace` classifies the characters that
occur in scope strings. -/
def isGoSpace (c : Char) : Bool :=
  c = ' ' ∨ c = '\t' ∨ c = '\n' ∨ c = Char.ofNat 11 ∨ c = Char.ofNat 12 ∨ c = '\r'

/-- Split a character list at every character satisfying `p`. -/
def splitByPred (p : Char → Bool) : List Char → List (List Char)
  | [] => [[]]
  | c :: rest =>
    match splitByPred p rest with
    | [] => [[]]
    | t :: ts => if p c then [] :: t :: ts else (c :: t) :: ts

/-- `strings.Fields`: the maximal runs of non-whitespace characters. -/
def goFields (s : String) : List String :=
  ((splitByPred isGoSpace s.data).filter (fun l => l ≠ [])).map String.mk

/-- `normalizeScopes`: a JSON array keeps its non-empty strings, a single
string is split on whitespace, anything else yields no scopes. -/
def normalizeScopes (v : Json) : List String :=
  match v with
  | .arr items =>
    items.filterMap (fun j =>
      match j with
      | .str s => if s ≠ "" then some s else none
      | _ => none)
  | .str s => goFields s
  | _ => []

/-- `extractScopes`: check `scp`, then `scope`. -/
def extractScopes (claims : JObj) : List String :=
  match JObj.get claims "scp" with
  | some v => normalizeScopes v
  | none =>
    match JObj.get claims "scope" with
    | some v => normalizeScopes v
    | none => []

/-- `extractFromToken`. -/
def extractFromToken (token : String) : String × List String :=
  match decodeJWTClaims token with
  | .error _ => ("", [])
  | .ok claims => (extractClientID claims, extractScopes claims)

/-- `extractExplicitClientID`: only the explicit `client_id` claim, never `aud`. -/
def extractExplicitClientID (token : String) : String :=
  match decodeJWTClaims token with
  | .error _ => ""
  | .ok claims =>
    match JObj.get claims "client_id" with
    | some (.str v) => if v ≠ "" then v else ""
    | _ => ""

/-- `extractCodexAuthDetails`: prefer the id token's client id, fall back to
the access token's explicit `client_id` claim, then the vendor default;
scopes come from whichever token has them. -/
def extractCodexAuthDetails (accessToken idToken : String) : String × List String :=
  let p := extractFromToken idToken
  let clientID := if p.1 = "" then extractExplicitClientID accessToken else p.1
  let scopes := if p.2 = [] then (extractFromToken accessToken).2 else p.2
  (if clientID = "" then codexDefaultClientID else clientID, scopes)

/-! ### Decoding vendor credential files (`json.Unmarshal` into structs) -/

/-- Unmarshal a string-typed struct field: absent or `null` leaves the zero
value, a non-string value is a type error. -/
def decodeStringField (m : JObj) (key : String) : Except String String :=
  match JObj.get m key with
  | none => .ok ""
  | some (.str s) => .ok s
  | some .null => .ok ""
  | some _ => .error ("cannot unmarshal field " ++ key)

/-- Unmarshal an integer-typed struct field. -/
def decodeIntField (m : JObj) (key : String) : Except String Int :=
  match JObj.get m key with
  | none => .ok 0
  | some (.num q) => if q.den = 1 then .ok q.num else .error ("cannot unmarshal field " ++ key)
  | some .null => .ok 0
  | some _ => .error ("cannot unmarshal field " ++ key)

/-- `codexCredentials`: the proxy-managed `codex-*.json` shape. -/
structure CodexCredentials where
  accessToken : String := ""
  idToken : String := ""
  refreshToken : String := ""
  email : String := ""
  accountID : String := ""
  lastRefresh : String := ""
  expired : String := ""
deriving Repr, Inhabited

def decodeCodexCredentials (fd : FileData) : Except String CodexCredentials :=
  match fd with
  | .text _ => .error "invalid character"
  | .json .null => .ok {}
  | .json (.obj m) => do
    let accessToken ← decodeStringField m "access_token"
    let idToken ← decodeStringField m "id_token"
    let refreshToken ← decodeStringField m "refresh_token"
    let email ← decodeStringField m "email"
    let accountID ← decodeStringField m "account_id"
    let lastRefresh ← decodeStringField m "last_refresh"
    let expired ← decodeStringField m "expired"
    .ok { accessToken, idToken, refreshToken, email, accountID, lastRefresh, expired }
  | .json _ => .error "cannot unmarshal into struct"

/-- `CodexAccount` (the multi-source version with native support). -/
structure CodexAccount where
  email : String := ""
  accountID : String := ""
  sourceName : String := ""
  displayName : String := ""
  token : String := ""
  idToken : String := ""
  refreshToken : String := ""
  clientID : String := ""
  scopes : List String := []
  lastRefresh : GoTime := .zero
  expiresAt : GoTime := .zero
  credentialPath : String := ""
  loadErr : String := ""
  isNative : Bool := false
deriving Repr, Inhabited

/-- `loadCredentialFile` for Codex: read, parse, require `access_token`,
derive the display identity, and extract OAuth parameters from the tokens. -/
def codexLoadCredentialFile (homeDir : String) (fs : FS) (name : String) :
    Except String CodexAccount :=
  let sourceName := extractEmailFromFilename name
  match lookupProxy fs.proxy name with
  | none => .error "failed to read file"
  | some fd =>
    match decodeCodexCredentials fd with
    | .error e => .error ("failed to parse JSON: " ++ e)
    | .ok creds =>
      if creds.accessToken = "" then .error "missing access_token"
      else
        let email := if creds.email = "" then sourceName else creds.email
        let p := extractCodexAuthDetails creds.accessToken creds.idToken
        .ok { email
              accountID := creds.accountID
              sourceName
              token := creds.accessToken
              idToken := creds.idToken
              refreshToken := creds.refreshToken
              clientID := p.1
              scopes := p.2
              lastRefresh := parseCodexTime creds.lastRefresh
              expiresAt := parseCodexTime creds.expired
              credentialPath := proxyPath homeDir name }

/-- `strings.ToLower`, character-wise. -/
def strToLower (s : String) : String := String.mk (s.data.map Char.toLower)

/-- `strings.EqualFold`, at simple-fold fidelity. -/
def eqFold (a b : String) : Bool := strToLower a = strToLower b

/-- Number of accounts sharing a (lower-cased) email. -/
def codexEmailCount (accounts : List CodexAccount) (key : String) : Nat :=
  (accounts.filter (fun b => b.email ≠ "" ∧ strToLower b.email = key)).length

/-- Whether some account with this email key has a distinct source name. -/
def codexHasAltSource (accounts : List CodexAccount) (key : String) : Bool :=
  accounts.any (fun b =>
    b.email ≠ "" ∧ strToLower b.email = key ∧ b.sourceName ≠ ""
      ∧ ¬ eqFold b.sourceName b.email)

/-- The display label `applyCodexDisplayNames` assigns to one account. -/
def codexDisplayLabel (accounts : List CodexAccount) (a : CodexAccount) : String :=
  let label :=
    if a.email ≠ "" then a.email
    else if a.sourceName ≠ "" then a.sourceName
    else "unknown"
  let key := strToLower a.email
  if a.email ≠ "" ∧ codexEmailCount accounts key > 1 then
    if a.sourceName ≠ "" ∧ ¬ eqFold a.sourceName a.email then a.sourceName
    else if ¬ codexHasAltSource accounts key ∧ a.accountID ≠ "" then
      a.email ++ "#" ++ shortID a.accountID
    else label
  else label

/-- `applyCodexDisplayNames`: set each account's display name. -/
def applyCodexDisplayNames (accounts : List CodexAccount) : List CodexAccount :=
  accounts.map (fun a => { a with displayName := codexDisplayLabel accounts a })

/-- `codexNativeCredentials`: the `~/.codex/auth.json` shape. -/
structure CodexNativeCredentials where
  accessToken : String := ""
  refreshToken : String := ""
  accountID : String := ""
  lastRefresh : String := ""
deriving Repr, Inhabited

def decodeCodexNativeCredentials (fd : FileData) : Except String CodexNativeCredentials :=
  match fd with
  | .text _ => .error "invalid character"
  | .json .null => .ok {}
  | .json (.obj m) => do
    let lastRefresh ← decodeStringField m "last_refresh"
    match JObj.get m "tokens" with
    | none => .ok { lastRefresh }
    | some .null => .ok { lastRefresh }
    | some (.obj t) => do
      let accessToken ← decodeStringField t "access_token"
      let refreshToken ← decodeStringField t "refresh_token"
      let accountID ← decodeStringField t "account_id"
      .ok { accessToken, refreshToken, accountID, lastRefresh }
    | some _ => .error "cannot unmarshal field tokens"
  | .json _ => .error "cannot unmarshal into struct"

/-- `loadNativeCredentials` for Codex: a missing or unreadable
`~/.codex/auth.json` is silent; parse or validation failures produce a single
native account carrying `loadErr`. -/
def codexLoadNativeCredentials (homeDir : String) (fs : FS) :
    List CodexAccount × Option String :=
  let path := homeDir ++ "/.codex/auth.json"
  match fs.codexAuth with
  | none => ([], none)
  | some fd =>
    match decodeCodexNativeCredentials fd with
    | .error e =>
      ([{ credentialPath := path, isNative := true, displayName := "native",
          loadErr := "failed to parse " ++ path ++ ": " ++ e }], none)
    | .ok creds =>
      if creds.accessToken = "" then
        ([{ credentialPath := path, isNative := true, displayName := "native",
            loadErr := "no access token found in " ++ path }], none)
      else
        let expiresAt :=
          match decodeJWTClaims creds.accessToken with
          | .ok claims =>
            match JObj.get claims "exp" with
            | some (.num e) => GoTime.unix (goInt64 e)
            | _ => GoTime.zero
          | .error _ => GoTime.zero
        let lastRefresh := parseCodexTime creds.lastRefresh
        let p := extractFromToken creds.accessToken
        ([{ accountID := creds.accountID
            token := creds.accessToken
            refreshToken := creds.refreshToken
            credentialPath := path
            isNative := true
            displayName := "native"
            expiresAt
            lastRefresh
            clientID := p.1
            scopes := p.2 }], none)

/-- The account kept for one globbed Codex file: the parsed account, or the
partial error-carrying account built from the filename. -/
def codexLoadOne (homeDir : String) (fs : FS) (name : String) : CodexAccount :=
  match codexLoadCredentialFile homeDir fs name with
  | .ok a => a
  | .error e =>
    let sourceName := extractEmailFromFilename name
    { email := sourceName, sourceName, token := "", loadErr := e }

/-- `loadCredentials` for Codex: proxy mode globs `codex-*.json` and keeps
one account per match (malformed files become error-carrying accounts);
native mode reads `~/.codex/auth.json`. -/
def codexLoadCredentials (homeDir : String) (fs : FS) :
    List CodexAccount × Option String :=
  if DetectCredentialSource homeDir fs = .sourceNative then
    codexLoadNativeCredentials homeDir fs
  else
    (applyCodexDisplayNames ((globProxy fs.proxy "codex-").map (codexLoadOne homeDir fs)),
     none)

/-- `claudeCredentials`: the proxy-managed `claude-*.json` shape. -/
structure ClaudeCredentials where
  accessToken : String := ""
  refreshToken : String := ""
  idToken : String := ""
  email : String := ""
  type : String := ""
  expired : String := ""
  lastRefresh : String := ""
deriving Repr, Inhabited

def decodeClaudeCredentials (fd : FileData) : Except String ClaudeCredentials :=
  match fd with
  | .text _ => .error "invalid character"
  | .json .null => .ok {}
  | .json (.obj m) => do
    let accessToken ← decodeStringField m "access_token"
    let refreshToken ← decodeStringField m "refresh_token"
    let idToken ← decodeStringField m "id_token"
    let email ← decodeStringField m "email"
    let type ← decodeStringField m "type"
    let expired ← decodeStringField m "expired"
    let lastRefresh ← decodeStringField m "last_refresh"
    .ok { accessToken, refreshToken, idToken, email, type, expired, lastRefresh }
  | .json _ => .error "cannot unmarshal into struct"

/-- `claudeAuth` (the multi-account version with native support). -/
structure ClaudeAuth where
  accessToken : String := ""
  refreshToken : String := ""
  expiresAt : GoTime := .zero
  scopes : List String := []
  email : String := ""
  sourceName : String := ""
  credentialPath : String := ""
  loadErr : String := ""
  isNative : Bool := false
deriving Repr, Inhabited

/-- `loadCredentialFile` for Claude. -/
def claudeLoadCredentialFile (homeDir : String) (fs : FS) (name : String) :
    Except String ClaudeAuth :=
  match lookupProxy fs.proxy name with
  | none => .error ("failed to read credentials file " ++ proxyPath homeDir name)
  | some fd =>
    match decodeClaudeCredentials fd with
    | .error e =>
      .error ("failed to parse credentials file " ++ proxyPath homeDir name ++ ": " ++ e)
    | .ok creds =>
      if creds.type ≠ "" ∧ creds.type ≠ "claude" then
        .error ("unexpected credential type " ++ creds.type ++ " in " ++ proxyPath homeDir name)
      else if creds.accessToken = "" then
        .error "no access token found in credentials"
      else
        let sourceName := extractClaudeEmailFromFilename name
        let email := if creds.email = "" then sourceName else creds.email
        .ok { accessToken := creds.accessToken
              refreshToken := creds.refreshToken
              email
              sourceName
              credentialPath := proxyPath homeDir name }

/-- `nativeCredentials` / `nativeOAuth`: the `~/.claude/.credentials.json`
shape, nested under `claudeAiOauth`. -/
structure NativeOAuth where
  accessToken : String := ""
  refreshToken : String := ""
  expiresAt : Int := 0
deriving Repr, Inhabited

def decodeNativeCredentials (fd : FileData) : Except String (Option NativeOAuth) :=
  match fd with
  | .text _ => .error "invalid character"
  | .json .null => .ok none
  | .json (.obj m) =>
    match JObj.get m "claudeAiOauth" with
    | none => .ok none
    | some .null => .ok none
    | some (.obj o) => do
      let accessToken ← decodeStringField o "accessToken"
      let refreshToken ← decodeStringField o "refreshToken"
      let expiresAt ← decodeIntField o "expiresAt"
      .ok (some { accessToken, refreshToken, expiresAt })
    | some _ => .error "cannot unmarshal field claudeAiOauth"
  | .json _ => .error "cannot unmarshal into struct"

/-- `loadNativeCredentials` for Claude: a missing or unreadable file is
silent; a parse failure or missing token yields a single error account. -/
def claudeLoadNativeCredentials (homeDir : String) (fs : FS) :
    List ClaudeAuth × Option String :=
  let path := homeDir ++ "/.claude/.credentials.json"
  match fs.claudeCreds with
  | none => ([], none)
  | some fd =>
    match decodeNativeCredentials fd with
    | .error e =>
      ([{ email := "native", sourceName := "native", credentialPath := path,
          isNative := true, loadErr := "failed to parse credentials: " ++ e }], none)
    | .ok oauth =>
      match oauth with
      | none =>
        ([{ email := "native", sourceName := "native", credentialPath := path,
            isNative := true, loadErr := "no access token found in credentials" }], none)
      | some o =>
        if o.accessToken = "" then
          ([{ email := "native", sourceName := "native", credentialPath := path,
              isNative := true, loadErr := "no access token found in credentials" }], none)
        else
          ([{ accessToken := o.accessToken
              refreshToken := o.refreshToken
              email := "native"
              sourceName := "native"
              credentialPath := path
              isNative := true
              expiresAt := if o.expiresAt > 0 then .unixMilli o.expiresAt else .zero }], none)

/-- The account kept for one globbed Claude file. -/
def claudeLoadOne (homeDir : String) (fs : FS) (name : String) : ClaudeAuth :=
  match claudeLoadCredentialFile homeDir fs name with
  | .ok a => a
  | .error e =>
    let sourceName := extractClaudeEmailFromFilename name
    { email := sourceName, sourceName, credentialPath := proxyPath homeDir name,
      loadErr := e }

/-- `loadCredentials` for Claude: proxy mode globs `claude-*.json` (erroring
when nothing matches) and keeps one account per match; native mode reads
`~/.claude/.credentials.json`. -/
def claudeLoadCredentials (homeDir : String) (fs : FS) :
    List ClaudeAuth × Option String :=
  if DetectCredentialSource homeDir fs = .sourceNative then
    claudeLoadNativeCredentials homeDir fs
  else
    if globProxy fs.proxy "claude-" = [] then
      ([], some ("No credential files found matching " ++ proxyPath homeDir "claude-*.json"))
    else
      ((globProxy fs.proxy "claude-").map (claudeLoadOne homeDir fs), none)

/-! ## `updateJSONCredentials` / `writeFileAtomic` (credentials.go)

Failure injection: `failStep` names the first primitive operation of
`writeFileAtomic` that fails (or `none` for a clean run); the deferred
`os.Remove` of the temporary file runs on every path. -/

inductive WriteStep where
  | createTemp : WriteStep
  | writeData : WriteStep
  | chmod : WriteStep
  | closeFile : WriteStep
  | renameFile : WriteStep
deriving DecidableEq, Repr

/-- `filepath.Dir` (at the fidelity needed here: text before the last `/`,
`"."` when there is none, `"/"` for a root entry). -/
def dirOf (p : String) : String :=
  match p.data.reverse.dropWhile (fun c => c ≠ '/') with
  | [] => "."
  | ['/'] => "/"
  | _ :: rest => String.mk rest.reverse

/-- The name `os.CreateTemp(dir, ".tmp-cred-*")` returns, with the random
part supplied as `nonce`. -/
def tmpNameOf (path nonce : String) : String :=
  dirOf path ++ "/.tmp-cred-" ++ nonce

/-- `writeFileAtomic`: create a temp file in the same directory, write the
data, copy the original permission bits onto it, close, and rename it over
the destination; any failure removes the temp file and leaves the
destination untouched. Returns the new filesystem and whether it succeeded. -/
def writeFileAtomic (path : String) (data : FileData) (mode : Nat) (nonce : String)
    (failStep : Option WriteStep) (fs : FSm) : FSm × Bool :=
  let tmp := tmpNameOf path nonce
  if failStep = some .createTemp then (fs, false)
  else
    let fs1 := fsSet fs tmp ⟨.text "", 0o600⟩
    if failStep = some .writeData then (fsDel fs1 tmp, false)
    else
      let fs2 := fsSet fs1 tmp ⟨data, 0o600⟩
      if failStep = some .chmod then (fsDel fs2 tmp, false)
      else
        let fs3 := fsSet fs2 tmp ⟨data, mode⟩
        if failStep = some .closeFile then (fsDel fs3 tmp, false)
        else if failStep = some .renameFile then (fsDel fs3 tmp, false)
        else (fsDel (fsSet fs3 path ⟨data, mode⟩) tmp, true)

/-- `updateJSONCredentials`: stat, read, unmarshal into a generic map,
apply `update`, re-serialize the full map, and write atomically with the
original permission bits. The JSON-literal-`null` file (whose nil map would
make the Go mutators panic) is outside the modelled domain and treated with
the other non-object contents as a parse failure. -/
def updateJSONCredentials (path : String) (update : JObj → Except String JObj)
    (nonce : String) (failStep : Option WriteStep) (fs : FSm) : FSm × Option String :=
  match fsGet fs path with
  | none => (fs, some ("failed to stat credentials file " ++ path))
  | some file =>
    match file.data with
    | .json (.obj raw) =>
      (match update raw with
      | .error e => (fs, some e)
      | .ok raw2 =>
        let r := writeFileAtomic path (.json (.obj raw2)) file.mode nonce failStep fs
        if r.2 then (r.1, none)
        else (r.1, some ("failed to write credentials file " ++ path)))
    | _ => (fs, some ("failed to parse credentials file " ++ path))

/-- The mutator of `updateCodexCredentialFile` (time already formatted). -/
def codexCredMutator (accessToken refreshToken idToken : String) (expiresIn : Int)
    (nowStr expStr : String) (raw : JObj) : Except String JObj :=
  let raw1 := JObj.set raw "access_token" (.str accessToken)
  let raw2 := if refreshToken ≠ "" then JObj.set raw1 "refresh_token" (.str refreshToken)
              else raw1
  let raw3 := if idToken ≠ "" then JObj.set raw2 "id_token" (.str idToken) else raw2
  let raw4 := JObj.set raw3 "last_refresh" (.str nowStr)
  .ok (if expiresIn > 0 then JObj.set raw4 "expired" (.str expStr) else raw4)

/-- `updateCodexCredentialFile`. -/
def updateCodexCredentialFile (path accessToken refreshToken idToken : String)
    (expiresIn : Int) (nowStr expStr nonce : String) (failStep : Option WriteStep)
    (fs : FSm) : FSm × Option String :=
  updateJSONCredentials path
    (codexCredMutator accessToken refreshToken idToken expiresIn nowStr expStr)
    nonce failStep fs

/-- `claudeRefreshResponse`. -/
structure ClaudeRefreshResponse where
  accessToken : String := ""
  refreshToken : String := ""
  expiresIn : Int := 0
  scope : String := ""
deriving Repr, Inhabited

/-- The mutator of `updateClaudeCredentialFile`. -/
def claudeCredMutator (resp : ClaudeRefreshResponse) (nowStr expStr : String)
    (raw : JObj) : Except String JObj :=
  let raw1 := JObj.set raw "access_token" (.str resp.accessToken)
  let raw2 := if resp.refreshToken ≠ "" then
                JObj.set raw1 "refresh_token" (.str resp.refreshToken)
              else raw1
  let raw3 := JObj.set raw2 "last_refresh" (.str nowStr)
  .ok (if resp.expiresIn > 0 then JObj.set raw3 "expired" (.str expStr) else raw3)

/-- `updateClaudeCredentialFile`. -/
def updateClaudeCredentialFile (path : String) (resp : ClaudeRefreshResponse)
    (nowStr expStr nonce : String) (failStep : Option WriteStep) (fs : FSm) :
    FSm × Option String :=
  updateJSONCredentials path (claudeCredMutator resp nowStr expStr) nonce failStep fs

/-- `geminiRefreshResponse`. -/
structure GeminiRefreshResponse where
  accessToken : String := ""
  expiresIn : Int := 0
  tokenType : String := ""
deriving Repr, Inhabited, DecidableEq

/-- The mutator of `updateGeminiCredentialFile`: the rotated token lives in
the nested `token` object, which must already exist. -/
def geminiCredMutator (resp : GeminiRefreshResponse) (expStr : String)
    (raw : JObj) : Except String JObj :=
  match JObj.get raw "token" with
  | some (.obj tokenRaw) =>
    let t1 := JObj.set tokenRaw "access_token" (.str resp.accessToken)
    let t2 := if resp.expiresIn > 0 then JObj.set t1 "expiry" (.str expStr) else t1
    .ok (JObj.set raw "token" (.obj t2))
  | _ => .error "missing token object in credentials file"

/-- `updateGeminiCredentialFile`. -/
def updateGeminiCredentialFile (path : String) (resp : GeminiRefreshResponse)
    (expStr nonce : String) (failStep : Option WriteStep) (fs : FSm) :
    FSm × Option String :=
  updateJSONCredentials path (geminiCredMutator resp expStr) nonce failStep fs

/-! ## HTTP oracles, errors, and token refreshers -/

/-- Go error values this subsystem distinguishes: `APIStatusError` (matched
by `errors.As`) versus any other error, carried as its message. The body of
a status error is the already-truncated byte slice. -/
inductive GoErr where
  | statusErr (status : Nat) (body : List Nat) : GoErr
  | msg (s : String) : GoErr
deriving DecidableEq, Repr

/-- Outcome of one HTTP exchange performed by a refresher
(`client.Do` + `io.ReadAll`). The request-construction error path of
`http.NewRequestWithContext`, unreachable for these fixed URLs, is not
modelled. -/
inductive HttpOutcome where
  | netErr (emsg : String) : HttpOutcome
  | readErr (emsg : String) : HttpOutcome
  | response (status : Nat) (body : List Nat) : HttpOutcome
deriving Repr

/-- Outcome of one quota-API exchange. For vendors that decode the body as a
stream, a body-read failure surfaces as the decoder's error and is
represented by `readErr`. -/
inductive QuotaOutcome where
  | netErr (emsg : String) : QuotaOutcome
  | readErr (emsg : String) : QuotaOutcome
  | response (status : Nat) (body : List Nat) : QuotaOutcome
deriving Repr

/-- Externally visible effects, for stating "no network call"/"no write"
and counting refresh and retry attempts. -/
inductive Effect where
  | quotaCall : Effect
  | refreshCall : Effect
  | httpCall : Effect
  | updaterCall : Effect
deriving DecidableEq, Repr

/-- `stringFromMap`: first key bound to a non-empty string. -/
def stringFromMap (raw : JObj) : List String → String
  | [] => ""
  | k :: rest =>
    match JObj.get raw k with
    | some (.str s) => if s ≠ "" then s else stringFromMap raw rest
    | _ => stringFromMap raw rest

/-- `strconv.ParseInt(s, 10, 64)` (64-bit range abstracted to `Int`). -/
def parseGoInt (s : String) : Option Int :=
  let p : Bool × List Char :=
    match s.data with
    | '+' :: rest => (false, rest)
    | '-' :: rest => (true, rest)
    | cs => (false, cs)
  if p.2 = [] ∨ ¬ p.2.all (fun c => '0' ≤ c ∧ c ≤ '9') then none
  else
    let v : Int := p.2.foldl (fun a c => a * 10 + ((c.toNat : Int) - 48)) 0
    some (if p.1 then -v else v)

/-- `int64FromMap`: first key bound to a number (or a parsable decimal
string). -/
def int64FromMap (raw : JObj) : List String → Int
  | [] => 0
  | k :: rest =>
    match JObj.get raw k with
    | some (.num q) => goInt64 q
    | some (.str s) =>
      match parseGoInt s with
      | some v => v
      | none => int64FromMap raw rest
    | some _ => int64FromMap raw rest
    | none => int64FromMap raw rest

/-- `refreshAccessToken` for Codex: natives are refused outright; otherwise
run the OAuth exchange, probe the open-map response for the rotated tokens,
and persist them via the credential updater before returning. -/
def codexRefreshAccessToken (acc : CodexAccount) (http : HttpOutcome)
    (nonce : String) (failStep : Option WriteStep) (nowStr expStr : String)
    (fs : FSm) : Except GoErr String × FSm × List Effect :=
  if acc.isNative then
    (.error (.msg "token expired. Re-authenticate with codex to refresh"), fs, [])
  else if acc.refreshToken = "" then
    (.error (.msg "refresh token not available"), fs, [])
  else
    match http with
    | .netErr e => (.error (.msg ("token refresh request failed: " ++ e)), fs, [.httpCall])
    | .readErr e =>
      (.error (.msg ("failed to read token refresh response: " ++ e)), fs, [.httpCall])
    | .response status body =>
      if status ≠ 200 then
        (.error (.statusErr status (TruncateBody body 200)), fs, [.httpCall])
      else
        match parseJsonObjBytes body with
        | .error e =>
          (.error (.msg ("failed to parse token refresh response: " ++ e)), fs, [.httpCall])
        | .ok raw =>
          let accessToken := stringFromMap raw ["access_token", "accessToken", "token"]
          if accessToken = "" then
            (.error (.msg "token refresh failed: empty access_token"), fs, [.httpCall])
          else
            let refreshToken := stringFromMap raw ["refresh_token", "refreshToken"]
            let idToken := stringFromMap raw ["id_token", "idToken"]
            let expiresIn := int64FromMap raw ["expires_in", "expiresIn"]
            if acc.credentialPath = "" then
              (.error (.msg "credential path not available for refresh"), fs, [.httpCall])
            else
              let r := updateCodexCredentialFile acc.credentialPath accessToken
                refreshToken idToken expiresIn nowStr expStr nonce failStep fs
              match r.2 with
              | some e => (.error (.msg e), r.1, [.httpCall, .updaterCall])
              | none => (.ok accessToken, r.1, [.httpCall, .updaterCall])

/-- `json.Unmarshal` of a refresh response body into `claudeRefreshResponse`. -/
def decodeClaudeRefreshResponse (bs : List Nat) : Except String ClaudeRefreshResponse :=
  match parseJsonBytes bs with
  | some (.obj m) => do
    let accessToken ← decodeStringField m "access_token"
    let refreshToken ← decodeStringField m "refresh_token"
    let expiresIn ← decodeIntField m "expires_in"
    let scope ← decodeStringField m "scope"
    .ok { accessToken, refreshToken, expiresIn, scope }
  | some .null => .ok {}
  | _ => .error "invalid JSON"

/-- `refreshAccessToken` for Claude. -/
def claudeRefreshAccessToken (creds : ClaudeAuth) (http : HttpOutcome)
    (nonce : String) (failStep : Option WriteStep) (nowStr expStr : String)
    (fs : FSm) : Except GoErr String × FSm × List Effect :=
  if creds.isNative then
    (.error (.msg "token expired. Re-authenticate with claude to refresh"), fs, [])
  else if creds.refreshToken = "" then
    (.error (.msg "refresh token not available"), fs, [])
  else
    match http with
    | .netErr e => (.error (.msg ("token refresh request failed: " ++ e)), fs, [.httpCall])
    | .readErr e =>
      (.error (.msg ("failed to read token refresh response: " ++ e)), fs, [.httpCall])
    | .response status body =>
      if status ≠ 200 then
        (.error (.statusErr status (TruncateBody body 200)), fs, [.httpCall])
      else
        match decodeClaudeRefreshResponse body with
        | .error e =>
          (.error (.msg ("failed to parse token refresh response: " ++ e)), fs, [.httpCall])
        | .ok resp =>
          if resp.accessToken = "" then
            (.error (.msg "token refresh failed: empty access_token"), fs, [.httpCall])
          else if creds.credentialPath = "" then
            (.error (.msg "credential path not available for refresh"), fs, [.httpCall])
          else
            let r := updateClaudeCredentialFile creds.credentialPath resp nowStr expStr
              nonce failStep fs
            match r.2 with
            | some e => (.error (.msg e), r.1, [.httpCall, .updaterCall])
            | none => (.ok resp.accessToken, r.1, [.httpCall, .updaterCall])

/-- `GeminiAccount` (proxy-managed version). -/
structure GeminiAccount where
  email : String := ""
  token : String := ""
  refreshToken : String := ""
  clientID : String := ""
  clientSecret : String := ""
  tokenURI : String := ""
  tokenExpiry : GoTime := .zero
  projectID : String := ""
  credentialPath : String := ""
deriving Repr, Inhabited

/-- `json.Unmarshal` of a refresh response body into `geminiRefreshResponse`. -/
def decodeGeminiRefreshResponse (bs : List Nat) : Except String GeminiRefreshResponse :=
  match parseJsonBytes bs with
  | some (.obj m) => do
    let accessToken ← decodeStringField m "access_token"
    let expiresIn ← decodeIntField m "expires_in"
    let tokenType ← decodeStringField m "token_type"
    .ok { accessToken, expiresIn, tokenType }
  | some .null => .ok {}
  | _ => .error "invalid JSON"

/-- `refreshAccessToken` for Gemini: requires both a refresh token and a
client id; a non-200 exchange is a plain error (not an `APIStatusError`);
the rotated token is persisted into the nested `token` object. -/
def geminiRefreshAccessToken (acc : GeminiAccount) (http : HttpOutcome)
    (nonce : String) (failStep : Option WriteStep) (expStr : String)
    (fs : FSm) : Except GoErr String × FSm × List Effect :=
  if acc.refreshToken = "" ∨ acc.clientID = "" then
    (.error (.msg "refresh token not available"), fs, [])
  else
    match http with
    | .netErr e => (.error (.msg ("token refresh request failed: " ++ e)), fs, [.httpCall])
    | .readErr e =>
      (.error (.msg ("failed to read token refresh response: " ++ e)), fs, [.httpCall])
    | .response status body =>
      if status ≠ 200 then
        (.error (.msg ("token refresh failed: status " ++ toString status)), fs, [.httpCall])
      else
        match decodeGeminiRefreshResponse body with
        | .error e =>
          (.error (.msg ("failed to parse token refresh response: " ++ e)), fs, [.httpCall])
        | .ok resp =>
          if resp.accessToken = "" then
            (.error (.msg "token refresh failed: empty access_token"), fs, [.httpCall])
          else if acc.credentialPath = "" then
            (.error (.msg "credential path not available for refresh"), fs, [.httpCall])
          else
            let r := updateGeminiCredentialFile acc.credentialPath resp expStr
              nonce failStep fs
            match r.2 with
            | some e => (.error (.msg e), r.1, [.httpCall, .updaterCall])
            | none => (.ok resp.accessToken, r.1, [.httpCall, .updaterCall])

/-! ## Usage fetching (per-account orchestration) -/

/-- `UsageRow`. -/
structure UsageRow where
  provider : String := ""
  label : String := ""
  usagePercent : Rat := 0
  resetTime : GoTime := .zero
  isWarning : Bool := false
  warningMsg : String := ""
  debugInfo : String := ""
deriving Repr, Inhabited

def isDigitChar (c : Char) : Bool := '0' ≤ c ∧ c ≤ '9'

/-- Simplified model of `time.Parse(time.RFC3339Nano, raw)` succeeding:
checks the fixed `YYYY-MM-DDTHH:MM:SS` skeleton followed by a non-empty
zone/fraction suffix. No verified claim depends on which strings parse. -/
def rfc3339Ok (s : String) : Bool :=
  match s.data with
  | y1 :: y2 :: y3 :: y4 :: '-' :: m1 :: m2 :: '-' :: d1 :: d2 :: 'T' ::
      h1 :: h2 :: ':' :: mi1 :: mi2 :: ':' :: s1 :: s2 :: rest =>
    [y1, y2, y3, y4, m1, m2, d1, d2, h1, h2, mi1, mi2, s1, s2].all isDigitChar
      && rest ≠ []
  | _ => false

/-- Unmarshal a float-typed struct field. -/
def decodeRatField (m : JObj) (key : String) : Except String Rat :=
  match JObj.get m key with
  | none => .ok 0
  | some (.num q) => .ok q
  | some .null => .ok 0
  | some _ => .error ("cannot unmarshal field " ++ key)

/-! ### Codex fetch -/

structure CodexWindow where
  usedPercent : Rat := 0
  resetAt : Int := 0
deriving Repr, Inhabited

structure CodexAPIResponse where
  planType : String := ""
  primary : CodexWindow := {}
  secondary : CodexWindow := {}
deriving Repr, Inhabited

def decodeCodexWindow (rl : JObj) (key : String) : Except String CodexWindow :=
  match JObj.get rl key with
  | none => .ok {}
  | some .null => .ok {}
  | some (.obj w) => do
    let usedPercent ← decodeRatField w "used_percent"
    let resetAt ← decodeIntField w "reset_at"
    .ok { usedPercent, resetAt }
  | some _ => .error ("cannot unmarshal field " ++ key)

def decodeCodexAPIResponse (bs : List Nat) : Except String CodexAPIResponse :=
  match parseJsonBytes bs with
  | some (.obj m) => do
    let planType ← decodeStringField m "plan_type"
    match JObj.get m "rate_limit" with
    | none => .ok { planType }
    | some .null => .ok { planType }
    | some (.obj rl) => do
      let primary ← decodeCodexWindow rl "primary_window"
      let secondary ← decodeCodexWindow rl "secondary_window"
      .ok { planType, primary, secondary }
    | some _ => .error "cannot unmarshal field rate_limit"
  | some .null => .ok {}
  | _ => .error "invalid JSON"

/-- `fetchUsageWithToken` for Codex, with the exchange outcome supplied as
an oracle. -/
def codexFetchUsageWithToken (q : QuotaOutcome) : Except GoErr CodexAPIResponse :=
  match q with
  | .netErr e => .error (.msg ("API request failed: " ++ e))
  | .readErr e => .error (.msg ("failed to decode response: " ++ e))
  | .response status body =>
    if status ≠ 200 then .error (.statusErr status (TruncateBody body 200))
    else
      match decodeCodexAPIResponse body with
      | .error e => .error (.msg ("failed to decode response: " ++ e))
      | .ok resp => .ok resp

def codexProviderName (acc : CodexAccount) : String :=
  let label :=
    if acc.displayName ≠ "" then acc.displayName
    else if acc.email ≠ "" then acc.email
    else acc.sourceName
  if label = "" then "Codex" else "Codex (" ++ label ++ ")"

/-- The SHA-256 token fingerprint hex digest is abstracted to an
uninterpreted constant: no claim inspects debug info, only that an empty
token yields an empty fingerprint. -/
def codexTokenFingerprint (token : String) : String :=
  if token = "" then "" else "sha256-fingerprint"

def codexAccountDebug (acc : CodexAccount) (planType : String) : String :=
  let parts :=
    (if acc.accountID ≠ "" then ["acct:" ++ shortID acc.accountID] else []) ++
    (if planType ≠ "" then ["plan:" ++ planType] else []) ++
    (let fp := codexTokenFingerprint acc.token
     if fp ≠ "" then ["token:" ++ fp] else [])
  String.intercalate " " parts

/-- The two fixed rows (5-hour and 7-day windows) of a Codex success. -/
def codexRows (acc : CodexAccount) (resp : CodexAPIResponse) : List UsageRow :=
  let providerName := codexProviderName acc
  let debugInfo := codexAccountDebug acc resp.planType
  [{ provider := providerName, label := "5-hour",
     usagePercent := resp.primary.usedPercent,
     resetTime := .unix resp.primary.resetAt, debugInfo },
   { provider := providerName, label := "7-day",
     usagePercent := resp.secondary.usedPercent,
     resetTime := .unix resp.secondary.resetAt, debugInfo }]

/-- `fetchAccountUsage` for Codex: empty token is an immediate load failure;
a 401 status error with a refresh token triggers one refresh and at most one
retried call; everything else is terminal. -/
def codexFetchAccountUsage (acc : CodexAccount) (q1 q2 : QuotaOutcome)
    (http : HttpOutcome) (nonce : String) (failStep : Option WriteStep)
    (nowStr expStr : String) (fs : FSm) :
    Except GoErr (List UsageRow) × FSm × List Effect :=
  if acc.token = "" then
    if acc.loadErr ≠ "" then
      (.error (.msg ("failed to load credentials: " ++ acc.loadErr)), fs, [])
    else
      (.error (.msg "failed to load credentials"), fs, [])
  else
    match codexFetchUsageWithToken q1 with
    | .ok resp => (.ok (codexRows acc resp), fs, [.quotaCall])
    | .error e =>
      match e with
      | .statusErr code _ =>
        if code = 401 ∧ acc.refreshToken ≠ "" then
          match codexRefreshAccessToken acc http nonce failStep nowStr expStr fs with
          | (.error re, fs2, eff) => (.error re, fs2, .quotaCall :: .refreshCall :: eff)
          | (.ok tok, fs2, eff) =>
            match codexFetchUsageWithToken q2 with
            | .ok resp =>
              (.ok (codexRows { acc with token := tok } resp), fs2,
               .quotaCall :: .refreshCall :: eff ++ [.quotaCall])
            | .error e2 =>
              (.error e2, fs2, .quotaCall :: .refreshCall :: eff ++ [.quotaCall])
        else (.error e, fs, [.quotaCall])
      | .msg _ => (.error e, fs, [.quotaCall])

/-! ### Claude fetch -/

structure ClaudeWindow where
  utilization : Rat := 0
  resetsAt : String := ""
deriving Repr, Inhabited

structure ClaudeUsageResponse where
  fiveHour : Option ClaudeWindow := none
  sevenDay : Option ClaudeWindow := none
deriving Repr, Inhabited

def decodeClaudeWindow (j : Json) : Except String (Option ClaudeWindow) :=
  match j with
  | .null => .ok none
  | .obj m => do
    let utilization ← decodeRatField m "utilization"
    let resetsAt ← decodeStringField m "resets_at"
    .ok (some { utilization, resetsAt })
  | _ => .error "cannot unmarshal window"

def decodeClaudeUsageResponse (bs : List Nat) : Except String ClaudeUsageResponse :=
  match parseJsonBytes bs with
  | some (.obj m) => do
    let fiveHour ← (match JObj.get m "five_hour" with
      | none => .ok none
      | some j => decodeClaudeWindow j)
    let sevenDay ← (match JObj.get m "seven_day" with
      | none => .ok none
      | some j => decodeClaudeWindow j)
    .ok { fiveHour, sevenDay }
  | some .null => .ok {}
  | _ => .error "invalid JSON"

/-- `fetchUsageFromAPI` for Claude, with the exchange outcome as an oracle. -/
def claudeFetchUsageFromAPI (q : QuotaOutcome) : Except GoErr ClaudeUsageResponse :=
  match q with
  | .netErr e => .error (.msg ("API request failed: " ++ e))
  | .readErr e => .error (.msg ("failed to parse API response: " ++ e))
  | .response status body =>
    if status ≠ 200 then .error (.statusErr status (TruncateBody body 200))
    else
      match decodeClaudeUsageResponse body with
      | .error e => .error (.msg ("failed to parse API response: " ++ e))
      | .ok resp => .ok resp

/-- `strings.TrimSpace`. -/
def strTrim (s : String) : String :=
  String.mk (((s.data.dropWhile isGoSpace).reverse.dropWhile isGoSpace).reverse)

def claudeProviderName (creds : ClaudeAuth) : String :=
  let label := if strTrim creds.email ≠ "" then strTrim creds.email
               else strTrim creds.sourceName
  if label = "" then "Claude" else "Claude (" ++ label ++ ")"

/-- `parseClaudeResetTime`: blank means the zero time, otherwise RFC3339Nano. -/
def parseClaudeResetTime (raw : String) : Except String GoTime :=
  if strTrim raw = "" then .ok .zero
  else if rfc3339Ok raw then .ok (.parsed raw)
  else .error "parsing time"

/-- `parseUsageResponse` for Claude: one row per present window; a reset-time
parse failure makes that window's row a warning row. An absent window yields
no row (and an entirely empty response yields no rows at all). -/
def claudeParseUsageResponse (resp : ClaudeUsageResponse) (providerName : String) :
    List UsageRow :=
  (match resp.fiveHour with
   | none => []
   | some w =>
     match parseClaudeResetTime w.resetsAt with
     | .error e =>
       [{ provider := providerName, label := "5-hour", isWarning := true,
          warningMsg := "Parse error: invalid reset time format: " ++ e }]
     | .ok t =>
       [{ provider := providerName, label := "5-hour",
          usagePercent := w.utilization, resetTime := t }]) ++
  (match resp.sevenDay with
   | none => []
   | some w =>
     match parseClaudeResetTime w.resetsAt with
     | .error e =>
       [{ provider := providerName, label := "7-day", isWarning := true,
          warningMsg := "Parse error: invalid reset time format: " ++ e }]
     | .ok t =>
       [{ provider := providerName, label := "7-day",
          usagePercent := w.utilization, resetTime := t }])

/-- `fetchAccountUsage` for Claude: empty token is an immediate load failure;
a 401 or 403 status error with a refresh token triggers one refresh and at
most one retried call; everything else is terminal. -/
def claudeFetchAccountUsage (acc : ClaudeAuth) (q1 q2 : QuotaOutcome)
    (http : HttpOutcome) (nonce : String) (failStep : Option WriteStep)
    (nowStr expStr : String) (fs : FSm) :
    Except GoErr (List UsageRow) × FSm × List Effect :=
  if acc.accessToken = "" then
    if acc.loadErr ≠ "" then
      (.error (.msg ("failed to load credentials: " ++ acc.loadErr)), fs, [])
    else
      (.error (.msg "no access token found in credentials"), fs, [])
  else
    let providerName := claudeProviderName acc
    match claudeFetchUsageFromAPI q1 with
    | .ok resp => (.ok (claudeParseUsageResponse resp providerName), fs, [.quotaCall])
    | .error e =>
      match e with
      | .statusErr code _ =>
        if acc.refreshToken ≠ "" ∧ (code = 401 ∨ code = 403) then
          match claudeRefreshAccessToken acc http nonce failStep nowStr expStr fs with
          | (.error re, fs2, eff) => (.error re, fs2, .quotaCall :: .refreshCall :: eff)
          | (.ok _, fs2, eff) =>
            match claudeFetchUsageFromAPI q2 with
            | .ok resp =>
              (.ok (claudeParseUsageResponse resp providerName), fs2,
               .quotaCall :: .refreshCall :: eff ++ [.quotaCall])
            | .error e2 =>
              (.error e2, fs2, .quotaCall :: .refreshCall :: eff ++ [.quotaCall])
        else (.error e, fs, [.quotaCall])
      | .msg _ => (.error e, fs, [.quotaCall])

/-! ### Gemini fetch -/

structure GeminiBucket where
  modelID : String := ""
  tokenType : String := ""
  remainingFraction : Rat := 0
  resetTime : String := ""
deriving Repr, Inhabited

def decodeGeminiBucket (j : Json) : Except String GeminiBucket :=
  match j with
  | .null => .ok {}
  | .obj m => do
    let modelID ← decodeStringField m "modelId"
    let tokenType ← decodeStringField m "tokenType"
    let remainingFraction ← decodeRatField m "remainingFraction"
    let resetTime ← decodeStringField m "resetTime"
    .ok { modelID, tokenType, remainingFraction, resetTime }
  | _ => .error "cannot unmarshal bucket"

def decodeGeminiQuotaResponse (bs : List Nat) : Except String (List GeminiBucket) :=
  match parseJsonBytes bs with
  | some (.obj m) =>
    (match JObj.get m "buckets" with
    | none => .ok []
    | some .null => .ok []
    | some (.arr xs) => xs.mapM decodeGeminiBucket
    | some _ => .error "cannot unmarshal field buckets")
  | some .null => .ok []
  | _ => .error "invalid JSON"

/-- `bucketToRow` for Gemini, including the warning row `fetchAccountUsage`
substitutes when the bucket's reset time fails to parse. The remaining
fraction is clamped into `[0, 1]` before conversion to used percent. -/
def geminiRowForBucket (email : String) (b : GeminiBucket) : UsageRow :=
  if rfc3339Ok b.resetTime then
    let rf0 := b.remainingFraction
    let rf1 := if rf0 > 1 then 1 else rf0
    let rf2 := if rf1 < 0 then 0 else rf1
    { provider := "Gemini (" ++ email ++ ")", label := b.modelID,
      usagePercent := (1 - rf2) * 100, resetTime := .parsed b.resetTime }
  else
    { provider := "Gemini (" ++ email ++ ")", label := b.modelID,
      isWarning := true,
      warningMsg := "Parse error: invalid reset time format" }

/-- The terminal handling of a Gemini quota response: non-200 is an error;
an empty bucket list yields a single warning row; otherwise one row per
bucket. -/
def geminiFinish (acc : GeminiAccount) (status : Nat) (body : List Nat) :
    Except GoErr (List UsageRow) :=
  if status ≠ 200 then
    .error (.msg ("API returned status " ++ toString status))
  else
    match decodeGeminiQuotaResponse body with
    | .error e => .error (.msg ("failed to parse response: " ++ e))
    | .ok buckets =>
      match buckets with
      | [] =>
        .ok [{ provider := "Gemini (" ++ acc.email ++ ")", isWarning := true,
               warningMsg := "Empty buckets array in response" }]
      | _ => .ok (buckets.map (geminiRowForBucket acc.email))

/-- `fetchAccountUsage` for Gemini: empty token is an immediate failure; a
401 status with a refresh token triggers one refresh and exactly one retried
call whose outcome is handled terminally. -/
def geminiFetchAccountUsage (acc : GeminiAccount) (q1 q2 : QuotaOutcome)
    (http : HttpOutcome) (nonce : String) (failStep : Option WriteStep)
    (expStr : String) (fs : FSm) :
    Except GoErr (List UsageRow) × FSm × List Effect :=
  if acc.token = "" then
    (.error (.msg "missing access token"), fs, [])
  else
    match q1 with
    | .netErr e => (.error (.msg ("request failed: " ++ e)), fs, [.quotaCall])
    | .readErr e => (.error (.msg ("failed to read response: " ++ e)), fs, [.quotaCall])
    | .response status body =>
      if status = 401 ∧ acc.refreshToken ≠ "" then
        match geminiRefreshAccessToken acc http nonce failStep expStr fs with
        | (.error re, fs2, eff) => (.error re, fs2, .quotaCall :: .refreshCall :: eff)
        | (.ok _, fs2, eff) =>
          match q2 with
          | .netErr e =>
            (.error (.msg ("request failed: " ++ e)), fs2,
             .quotaCall :: .refreshCall :: eff ++ [.quotaCall])
          | .readErr e =>
            (.error (.msg ("failed to read response: " ++ e)), fs2,
             .quotaCall :: .refreshCall :: eff ++ [.quotaCall])
          | .response st2 b2 =>
            (geminiFinish acc st2 b2, fs2,
             .quotaCall :: .refreshCall :: eff ++ [.quotaCall])
      else (geminiFinish acc status body, fs, [.quotaCall])

/-! ### Concrete inputs used by witnesses -/

/-- A one-file filesystem for exercising the credential updater. -/
def c3fs : FSm := [("h/cred.json", ⟨.json (.obj [("refresh_token", .str "R")]), 0o600⟩)]

/-- A mutator that only sets `access_token`. -/
def c3update (m : JObj) : Except String JObj := .ok (JObj.set m "access_token" (.str "T"))

/-- A filesystem with one valid Codex proxy file. -/
def c2fs : FS :=
  { proxy := [("codex-a@b.json", .json (.obj [("access_token", .str "T")]))],
    codexAuth := none, claudeCreds := some (.text "junk") }

/-- A filesystem with one valid and one malformed Codex proxy file. -/
def c6fs : FS :=
  { proxy := [("codex-a.json", .json (.obj [("access_token", .str "T")])),
              ("codex-bad.json", .text "oops")],
    codexAuth := none, claudeCreds := none }

/-- A refreshable Codex account pointing at the `c3fs` credential file. -/
def c4cacc : CodexAccount :=
  { token := "old", refreshToken := "R", credentialPath := "h/cred.json" }

/-- The bytes of the OAuth body `\x7b"access_token":"NEW"\x7d`. -/
def c4cbody : List Nat :=
  [123, 34, 97, 99, 99, 101, 115, 115, 95, 116, 111, 107, 101, 110,
   34, 58, 34, 78, 69, 87, 34, 125]

/-- A refreshable Gemini account. -/
def c4gacc : GeminiAccount :=
  { email := "e", token := "old", refreshToken := "R", clientID := "C",
    credentialPath := "h/gem.json" }

/-- The bytes of the OAuth body `\x7b"access_token":"G"\x7d`. -/
def c4gbody : List Nat :=
  [123, 34, 97, 99, 99, 101, 115, 115, 95, 116, 111, 107, 101, 110,
   34, 58, 34, 71, 34, 125]

/-- The decoded form of `c4gbody`. -/
def c4gresp : GeminiRefreshResponse := { accessToken := "G" }

/-- A Gemini credential file with the required nested `token` object. -/
def c4gfs : FSm :=
  [("h/gem.json", ⟨.json (.obj [("token", .obj [("access_token", .str "old")])]), 0o600⟩)]

/-- A Codex account with both an access and a refresh token. -/
def c5acc : CodexAccount := { token := "t", refreshToken := "R" }

/-- A Claude account with both an access and a refresh token. -/
def c5aacc : ClaudeAuth := { accessToken := "t", refreshToken := "R" }

/-- A Gemini account with an access token, a refresh token and a client id. -/
def c5gacc : GeminiAccount := { token := "t", refreshToken := "R", clientID := "C" }

/-- The bytes of the quota body `\x7b"buckets":[]\x7d`. -/
def c9gbody : List Nat :=
  [123, 34, 98, 117, 99, 107, 101, 116, 115, 34, 58, 91, 93, 125]

/-! ## Claim theorems -/

/-- C10: TruncateBody returns the whole body unchanged when its length is at
most maxLen, and otherwise returns a prefix of at most maxLen bytes ending on
a complete UTF-8 rune boundary followed by "..." [bytes 46,46,46], so valid
UTF-8 input never produces an invalid UTF-8 result. -/
theorem C10_truncateBody_spec (body : List Nat) (maxLen : Nat) :
    (body.length ≤ maxLen → TruncateBody body maxLen = body)
    ∧ (maxLen < body.length →
        ∃ e, e ≤ maxLen
          ∧ TruncateBody body maxLen = body.take e ++ [46, 46, 46]
          ∧ (utf8Valid body = true → utf8Valid (body.take e) = true)) := by
  constructor
  · intro hle
    rw [TruncateBody, if_pos hle]
  · intro hlt
    refine ⟨truncLoop body maxLen 0, ?_, ?_, ?_⟩
    · exact truncLoop_le body maxLen 0 (Nat.zero_le maxLen)
    · rw [TruncateBody, if_neg (by omega)]
    · intro hvalid
      exact truncLoop_valid body maxLen hlt 0 (Nat.zero_le maxLen)
        (by rw [List.take_zero]; simp [utf8Valid]) (by rw [List.drop_zero]; exact hvalid)

/-- C10 witness: a 5-byte ASCII body truncated at 3 bytes. -/
theorem C10_truncateBody_witness :
    ((5 : Nat) ≤ 3 → TruncateBody [104, 101, 108, 108, 111] 3 = [104, 101, 108, 108, 111])
    ∧ ((3 : Nat) < 5 →
        ∃ e, e ≤ 3
          ∧ TruncateBody [104, 101, 108, 108, 111] 3
              = List.take e [104, 101, 108, 108, 111] ++ [46, 46, 46]
          ∧ (utf8Valid [104, 101, 108, 108, 111] = true →
              utf8Valid (List.take e [104, 101, 108, 108, 111]) = true)) :=
  C10_truncateBody_spec [104, 101, 108, 108, 111] 3

/-- Valid unpadded base64url contains no character outside the alphabet. -/
theorem decodeRawChars_not_mem (cs : List Char) (bs : List Nat) (c : Char)
    (h : decodeRawChars cs = some bs) (hc : b64Index c = none) : c ∉ cs := by
  intro hmem
  rw [decodeRawChars_none_of_mem c hc cs hmem] at h
  exact Option.noConfusion h

/-- Valid unpadded base64url never has length ≡ 1 (mod 4). -/
theorem decodeRawChars_length_mod (cs : List Char) (bs : List Nat)
    (h : decodeRawChars cs = some bs) : cs.length % 4 ≠ 1 := by
  induction cs using decodeRawChars.induct generalizing bs with
  | case1 => simp
  | case2 c1 => simp [decodeRawChars] at h
  | case3 c1 c2 => simp
  | case4 c1 c2 c3 => simp
  | case5 c1 c2 c3 c4 rest ih =>
    cases h1 : b64Index c1 with
    | none => simp [decodeRawChars, h1] at h
    | some i1 =>
      cases h2 : b64Index c2 with
      | none => simp [decodeRawChars, h1, h2] at h
      | some i2 =>
        cases h3 : b64Index c3 with
        | none => simp [decodeRawChars, h1, h2, h3] at h
        | some i3 =>
          cases h4 : b64Index c4 with
          | none => simp [decodeRawChars, h1, h2, h3, h4] at h
          | some i4 =>
            cases htail : decodeRawChars rest with
            | none => simp [decodeRawChars, h1, h2, h3, h4, htail] at h
            | some tail =>
              have := ih tail htail
              simp only [List.length_cons]
              omega

/-- C8: decodeJWTClaims errors on any token with fewer than two dot-separated
segments, and a payload written in padded or unpadded base64url decodes to
the same result (the parse of the same decoded bytes). -/
theorem C8_decodeJWTClaims_segments_padding :
    (∀ tok : List Char, '.' ∉ tok → decodeJWTClaimsChars tok = .error "invalid token")
    ∧ (∀ (hd payload : List Char) (bytes : List Nat), '.' ∉ hd →
        decodeRawChars payload = some bytes →
        decodeJWTClaimsChars (hd ++ '.' :: payload) = parseJsonObjBytes bytes
        ∧ decodeJWTClaimsChars (hd ++ '.' :: (payload ++ b64Padding payload.length))
            = parseJsonObjBytes bytes) := by
  constructor
  · intro tok hdot
    rw [decodeJWTClaimsChars, splitChar_of_not_mem '.' tok hdot]
  · intro hd payload bytes hhd hdec
    have hdotpay : '.' ∉ payload :=
      decodeRawChars_not_mem payload bytes '.' hdec (by decide)
    constructor
    · rw [decodeJWTClaimsChars, splitChar_append '.' hd payload hhd,
        splitChar_of_not_mem '.' payload hdotpay]
      simp [hdec]
    · by_cases hpad : b64Padding payload.length = []
      · rw [hpad, List.append_nil]
        rw [decodeJWTClaimsChars, splitChar_append '.' hd payload hhd,
          splitChar_of_not_mem '.' payload hdotpay]
        simp [hdec]
      · have hpadlen : payload.length % 4 = 2 ∨ payload.length % 4 = 3 := by
          have hne1 := decodeRawChars_length_mod payload bytes hdec
          have hmod : payload.length % 4 < 4 := Nat.mod_lt _ (by omega)
          rw [b64Padding] at hpad
          have hnz : (4 - payload.length % 4) % 4 ≠ 0 := by
            intro h0
            rw [h0] at hpad
            simp at hpad
          omega
        have hdotfull : '.' ∉ payload ++ b64Padding payload.length := by
          intro hmem
          rcases List.mem_append.mp hmem with hm | hm
          · exact hdotpay hm
          · rw [b64Padding] at hm
            have := List.eq_of_mem_replicate hm
            exact absurd this (by decide)
        have heqmem : ('=' : Char) ∈ payload ++ b64Padding payload.length := by
          apply List.mem_append.mpr
          right
          rw [b64Padding]
          apply List.mem_replicate.mpr
          constructor
          · omega
          · rfl
        have hrawfail : decodeRawChars (payload ++ b64Padding payload.length) = none :=
          decodeRawChars_none_of_mem '=' (by decide) _ heqmem
        have hfull : b64Padding (payload ++ b64Padding payload.length).length = [] := by
          rw [b64Padding, List.length_append, b64Padding, List.length_replicate]
          have hz : (payload.length + (4 - payload.length % 4) % 4) % 4 = 0 := by omega
          rw [hz]
          decide
        have hkey : decodePadChars ((payload ++ b64Padding payload.length)
            ++ b64Padding (payload ++ b64Padding payload.length).length) = some bytes := by
          rw [hfull, List.append_nil]
          exact decodePadChars_append_padding payload bytes hdec
        simp only [List.append_assoc, List.length_append] at hkey
        rw [decodeJWTClaimsChars, splitChar_append '.' hd _ hhd,
          splitChar_of_not_mem '.' _ hdotfull]
        simp [hrawfail, hkey]

/-- C8 witness: the one-byte payload `QQ` (unpadded) versus `QQ==` (padded). -/
theorem C8_decodeJWTClaims_witness :
    ('.' ∉ ['h', 'd']) ∧ decodeRawChars ['Q', 'Q'] = some [65]
    ∧ (decodeJWTClaimsChars (['h', 'd'] ++ '.' :: ['Q', 'Q']) = parseJsonObjBytes [65]
       ∧ decodeJWTClaimsChars
           (['h', 'd'] ++ '.' :: (['Q', 'Q'] ++ b64Padding (['Q', 'Q'] : List Char).length))
           = parseJsonObjBytes [65]) :=
  ⟨by decide, by decide,
    C8_decodeJWTClaims_segments_padding.2 ['h', 'd'] ['Q', 'Q'] [65]
      (by decide) (by decide)⟩

/-- Behaviour of the atomic write: failure leaves the destination untouched,
success installs the data with the requested mode and leaves no temp file. -/
theorem writeFileAtomic_spec (path : String) (data : FileData) (mode : Nat)
    (nonce : String) (failStep : Option WriteStep) (fs : FSm)
    (htmp : tmpNameOf path nonce ≠ path) :
    ((writeFileAtomic path data mode nonce failStep fs).2 = false →
        fsGet (writeFileAtomic path data mode nonce failStep fs).1 path = fsGet fs path)
    ∧ ((writeFileAtomic path data mode nonce failStep fs).2 = true →
        fsGet (writeFileAtomic path data mode nonce failStep fs).1 path
          = some ⟨data, mode⟩
        ∧ fsGet (writeFileAtomic path data mode nonce failStep fs).1
            (tmpNameOf path nonce) = none) := by
  have hpt : path ≠ tmpNameOf path nonce := fun hh => htmp hh.symm
  unfold writeFileAtomic
  split_ifs with h1 h2 h3 h4 h5
  · exact ⟨fun _ => rfl, fun hc => by simp at hc⟩
  · exact ⟨fun _ => by
      simp only [fsGet_fsDel_ne _ _ _ hpt, fsGet_fsSet_ne _ _ _ _ hpt],
      fun hc => by simp at hc⟩
  · exact ⟨fun _ => by
      simp only [fsGet_fsDel_ne _ _ _ hpt, fsGet_fsSet_ne _ _ _ _ hpt],
      fun hc => by simp at hc⟩
  · exact ⟨fun _ => by
      simp only [fsGet_fsDel_ne _ _ _ hpt, fsGet_fsSet_ne _ _ _ _ hpt],
      fun hc => by simp at hc⟩
  · exact ⟨fun _ => by
      simp only [fsGet_fsDel_ne _ _ _ hpt, fsGet_fsSet_ne _ _ _ _ hpt],
      fun hc => by simp at hc⟩
  · refine ⟨fun hc => by simp at hc, fun _ => ⟨?_, ?_⟩⟩
    · simp only [fsGet_fsDel_ne _ _ _ hpt, fsGet_fsSet_self]
    · simp only [fsGet_fsDel_self]

/-- C3: for every credential file whose JSON parses to an object,
updateJSONCredentials re-serializes the full mutated original map (so every
key the mutator does not set is preserved), writes it with the original
permission bits through a same-directory temporary file renamed over the
original, and on any failure leaves the original file unchanged and returns
an error. -/
theorem C3_updateJSONCredentials_spec (fs : FSm) (path nonce : String)
    (failStep : Option WriteStep) (update : JObj → Except String JObj)
    (htmp : tmpNameOf path nonce ≠ path) :
    (∀ e, (updateJSONCredentials path update nonce failStep fs).2 = some e →
        fsGet (updateJSONCredentials path update nonce failStep fs).1 path
          = fsGet fs path)
    ∧ ((updateJSONCredentials path update nonce failStep fs).2 = none →
        ∃ f raw raw2, fsGet fs path = some f ∧ f.data = .json (.obj raw)
          ∧ update raw = .ok raw2
          ∧ fsGet (updateJSONCredentials path update nonce failStep fs).1 path
              = some ⟨.json (.obj raw2), f.mode⟩
          ∧ fsGet (updateJSONCredentials path update nonce failStep fs).1
              (tmpNameOf path nonce) = none
          ∧ ∀ k, (∀ m m2, update m = .ok m2 → JObj.get m2 k = JObj.get m k) →
              JObj.get raw2 k = JObj.get raw k) := by
  unfold updateJSONCredentials
  split
  · exact ⟨fun e _ => rfl, fun hc => by simp at hc⟩
  · rename_i file heq
    split
    · rename_i raw hdata
      split
      · exact ⟨fun e _ => rfl, fun hc => by simp at hc⟩
      · rename_i raw2 hupd
        obtain ⟨hfail, hsucc⟩ := writeFileAtomic_spec path (.json (.obj raw2))
          file.mode nonce failStep fs htmp
        cases hw : (writeFileAtomic path (.json (.obj raw2)) file.mode nonce
            failStep fs).2 with
        | true =>
          simp only [hw, eq_self_iff_true, if_true]
          refine ⟨fun e he => Option.noConfusion he, fun _ => ?_⟩
          exact ⟨file, raw, raw2, heq, hdata, hupd, (hsucc hw).1, (hsucc hw).2,
            fun k hk => hk raw raw2 hupd⟩
        | false =>
          simp only [hw, Bool.false_eq_true, if_false]
          exact ⟨fun e _ => hfail hw, fun hc => Option.noConfusion hc⟩
    · exact ⟨fun e _ => rfl, fun hc => by simp at hc⟩

/-- C3 witness: a concrete successful update of a one-file filesystem with a
mutator setting only `access_token`. -/
theorem C3_updateJSONCredentials_witness :
    (∀ e, (updateJSONCredentials "h/cred.json" c3update "x" none c3fs).2 = some e →
        fsGet (updateJSONCredentials "h/cred.json" c3update "x" none c3fs).1 "h/cred.json"
          = fsGet c3fs "h/cred.json")
    ∧ ((updateJSONCredentials "h/cred.json" c3update "x" none c3fs).2 = none →
        ∃ f raw raw2, fsGet c3fs "h/cred.json" = some f ∧ f.data = .json (.obj raw)
          ∧ c3update raw = .ok raw2
          ∧ fsGet (updateJSONCredentials "h/cred.json" c3update "x" none c3fs).1 "h/cred.json"
              = some ⟨.json (.obj raw2), f.mode⟩
          ∧ fsGet (updateJSONCredentials "h/cred.json" c3update "x" none c3fs).1
              (tmpNameOf "h/cred.json" "x") = none
          ∧ ∀ k, (∀ m m2, c3update m = .ok m2 → JObj.get m2 k = JObj.get m k) →
              JObj.get raw2 k = JObj.get raw k) :=
  C3_updateJSONCredentials_spec c3fs "h/cred.json" "x" none c3update (by decide)

/-- C1: for every account with isNative set, the vendor refreshAccessToken
returns immediately with the fixed vendor-named re-authenticate error,
performing no network call and no file write, regardless of whether the
account carries a refresh token. -/
theorem C1_native_refresh_short_circuit (cacc : CodexAccount) (aacc : ClaudeAuth)
    (http : HttpOutcome) (nonce : String) (failStep : Option WriteStep)
    (nowStr expStr : String) (fs : FSm)
    (hc : cacc.isNative = true) (ha : aacc.isNative = true) :
    codexRefreshAccessToken cacc http nonce failStep nowStr expStr fs
      = (.error (.msg "token expired. Re-authenticate with codex to refresh"), fs, [])
    ∧ claudeRefreshAccessToken aacc http nonce failStep nowStr expStr fs
      = (.error (.msg "token expired. Re-authenticate with claude to refresh"), fs, []) := by
  constructor
  · unfold codexRefreshAccessToken
    rw [if_pos hc]
  · unfold claudeRefreshAccessToken
    rw [if_pos ha]

/-- C1 witness: native accounts that do carry refresh tokens. -/
theorem C1_native_refresh_witness :
    codexRefreshAccessToken { isNative := true, refreshToken := "R" }
        (.response 200 []) "n" none "t1" "t2" []
      = (.error (.msg "token expired. Re-authenticate with codex to refresh"), [], [])
    ∧ claudeRefreshAccessToken { isNative := true, refreshToken := "R" }
        (.response 200 []) "n" none "t1" "t2" []
      = (.error (.msg "token expired. Re-authenticate with claude to refresh"), [], []) :=
  C1_native_refresh_short_circuit _ _ _ _ _ _ _ _ rfl rfl

/-- Loading a Codex proxy file only depends on the proxy directory listing. -/
theorem codexLoadCredentialFile_proxy_eq (homeDir : String) (fs fs2 : FS)
    (name : String) (h : fs2.proxy = fs.proxy) :
    codexLoadCredentialFile homeDir fs name = codexLoadCredentialFile homeDir fs2 name := by
  unfold codexLoadCredentialFile
  rw [h]

/-- Loading a Claude proxy file only depends on the proxy directory listing. -/
theorem claudeLoadCredentialFile_proxy_eq (homeDir : String) (fs fs2 : FS)
    (name : String) (h : fs2.proxy = fs.proxy) :
    claudeLoadCredentialFile homeDir fs name = claudeLoadCredentialFile homeDir fs2 name := by
  unfold claudeLoadCredentialFile
  rw [h]

/-- C2: detection returns Native for an empty home directory; for a non-empty
one it returns Proxy exactly when some file in the managed directory matches
a vendor pattern; and under Proxy the Codex and Claude loaders read only the
managed directory, a vendor with zero matches yielding zero accounts. -/
theorem C2_credential_source_global (homeDir : String) (fs fs2 : FS) :
    DetectCredentialSource "" fs = .sourceNative
    ∧ (homeDir ≠ "" →
        (DetectCredentialSource homeDir fs = .sourceProxy ↔
          ∃ p ∈ fs.proxy, (matchGlob "claude-" p.1 || matchGlob "codex-" p.1
            || matchGlob "gemini-" p.1) = true))
    ∧ (DetectCredentialSource homeDir fs = .sourceProxy → fs2.proxy = fs.proxy →
        codexLoadCredentials homeDir fs = codexLoadCredentials homeDir fs2
        ∧ claudeLoadCredentials homeDir fs = claudeLoadCredentials homeDir fs2)
    ∧ (DetectCredentialSource homeDir fs = .sourceProxy →
        (globProxy fs.proxy "codex-" = [] → (codexLoadCredentials homeDir fs).1 = [])
        ∧ (globProxy fs.proxy "claude-" = [] → (claudeLoadCredentials homeDir fs).1 = [])) := by
  refine ⟨by simp [DetectCredentialSource], fun hne => ?_, fun hp hproxy => ?_, fun hp => ?_⟩
  · unfold DetectCredentialSource
    rw [if_neg hne]
    by_cases hcond : (fs.proxy.any (fun p => matchGlob "claude-" p.1)
        || fs.proxy.any (fun p => matchGlob "codex-" p.1)
        || fs.proxy.any (fun p => matchGlob "gemini-" p.1)) = true
    · rw [if_pos hcond]
      simp only [true_iff]
      simp only [Bool.or_eq_true, List.any_eq_true] at hcond ⊢
      rcases hcond with (⟨p, hp2, hm⟩ | ⟨p, hp2, hm⟩) | ⟨p, hp2, hm⟩
      · exact ⟨p, hp2, Or.inl (Or.inl hm)⟩
      · exact ⟨p, hp2, Or.inl (Or.inr hm)⟩
      · exact ⟨p, hp2, Or.inr hm⟩
    · rw [if_neg hcond]
      constructor
      · intro hx
        exact absurd hx (by simp)
      · intro hx
        apply absurd _ hcond
        simp only [Bool.or_eq_true, List.any_eq_true] at hx ⊢
        rcases hx with ⟨p, hp2, (hm | hm) | hm⟩
        · exact Or.inl (Or.inl ⟨p, hp2, hm⟩)
        · exact Or.inl (Or.inr ⟨p, hp2, hm⟩)
        · exact Or.inr ⟨p, hp2, hm⟩
  · have hpn : DetectCredentialSource homeDir fs ≠ .sourceNative := by
      rw [hp]
      simp
    have hdet2 : DetectCredentialSource homeDir fs2 = .sourceProxy := by
      unfold DetectCredentialSource at hp ⊢
      rw [hproxy]
      exact hp
    have hpn2 : DetectCredentialSource homeDir fs2 ≠ .sourceNative := by
      rw [hdet2]
      simp
    have hone : codexLoadOne homeDir fs = codexLoadOne homeDir fs2 := by
      funext name
      unfold codexLoadOne
      rw [codexLoadCredentialFile_proxy_eq homeDir fs fs2 name hproxy]
    have honec : claudeLoadOne homeDir fs = claudeLoadOne homeDir fs2 := by
      funext name
      unfold claudeLoadOne
      rw [claudeLoadCredentialFile_proxy_eq homeDir fs fs2 name hproxy]
    constructor
    · unfold codexLoadCredentials
      rw [if_neg hpn, if_neg hpn2, hproxy, hone]
    · unfold claudeLoadCredentials
      rw [if_neg hpn, if_neg hpn2, hproxy, honec]
  · have hpn : DetectCredentialSource homeDir fs ≠ .sourceNative := by
      rw [hp]
      simp
    constructor
    · intro hg
      unfold codexLoadCredentials
      rw [if_neg hpn, hg]
      rfl
    · intro hg
      unfold claudeLoadCredentials
      rw [if_neg hpn]
      simp [hg]

/-- A successfully parsed Codex proxy file yields a clean, token-carrying
account. -/
theorem codexLoadCredentialFile_ok (homeDir : String) (fs : FS) (name : String)
    (a : CodexAccount) (h : codexLoadCredentialFile homeDir fs name = .ok a) :
    a.loadErr = "" ∧ a.token ≠ "" := by
  unfold codexLoadCredentialFile at h
  split at h
  · exact absurd h (by simp)
  · split at h
    · exact absurd h (by simp)
    · rename_i creds
      split at h
      · exact absurd h (by simp)
      · rename_i hne
        cases h
        exact ⟨rfl, hne⟩

/-- A successfully parsed Claude proxy file yields a clean, token-carrying
account. -/
theorem claudeLoadCredentialFile_ok (homeDir : String) (fs : FS) (name : String)
    (a : ClaudeAuth) (h : claudeLoadCredentialFile homeDir fs name = .ok a) :
    a.loadErr = "" ∧ a.accessToken ≠ "" := by
  unfold claudeLoadCredentialFile at h
  split at h
  · exact absurd h (by simp)
  · split at h
    · exact absurd h (by simp)
    · rename_i creds
      split at h
      · exact absurd h (by simp)
      · split at h
        · exact absurd h (by simp)
        · rename_i htype hne
          cases h
          exact ⟨rfl, hne⟩

/-- C7: every account produced by the Codex or Claude loader (proxy or native
path) never carries both a non-empty access token and a non-empty load
error. -/
theorem C7_token_loadErr_exclusive (homeDir : String) (fs : FS) :
    (∀ a ∈ (codexLoadCredentials homeDir fs).1, ¬(a.token ≠ "" ∧ a.loadErr ≠ ""))
    ∧ (∀ a ∈ (claudeLoadCredentials homeDir fs).1,
        ¬(a.accessToken ≠ "" ∧ a.loadErr ≠ "")) := by
  constructor
  · intro a ha
    unfold codexLoadCredentials at ha
    split at ha
    · unfold codexLoadNativeCredentials at ha
      split at ha
      · simp at ha
      · split at ha
        · simp at ha
          subst ha
          simp
        · split at ha
          · simp at ha
            subst ha
            simp
          · simp at ha
            subst ha
            simp
    · unfold applyCodexDisplayNames at ha
      simp only [List.mem_map] at ha
      obtain ⟨b, hb, hba⟩ := ha
      obtain ⟨name, hn, hbn⟩ := hb
      subst hba
      subst hbn
      cases hf : codexLoadCredentialFile homeDir fs name with
      | ok b2 =>
        have hok := codexLoadCredentialFile_ok homeDir fs name b2 hf
        simp [codexLoadOne, hf, hok.1]
      | error e => simp [codexLoadOne, hf]
  · intro a ha
    unfold claudeLoadCredentials at ha
    split at ha
    · unfold claudeLoadNativeCredentials at ha
      split at ha
      · simp at ha
      · split at ha
        · simp at ha
          subst ha
          simp
        · split at ha
          · simp at ha
            subst ha
            simp
          · split at ha
            · simp at ha
              subst ha
              simp
            · simp at ha
              subst ha
              simp
    · split at ha
      · simp at ha
      · simp only [List.mem_map] at ha
        obtain ⟨name, hn, hbn⟩ := ha
        subst hbn
        cases hf : claudeLoadCredentialFile homeDir fs name with
        | ok b2 =>
          have hok := claudeLoadCredentialFile_ok homeDir fs name b2 hf
          simp [claudeLoadOne, hf, hok.1]
        | error e => simp [claudeLoadOne, hf]

/-- C2 witness: empty home is native; one codex file makes the source proxy;
the Claude loader then yields zero accounts with no native fallback. -/
theorem C2_credential_source_witness :
    DetectCredentialSource "" c2fs = .sourceNative
    ∧ DetectCredentialSource "h" c2fs = .sourceProxy
    ∧ (claudeLoadCredentials "h" c2fs).1 = [] := by
  have h := C2_credential_source_global "h" c2fs c2fs
  refine ⟨h.1, ?_, ?_⟩
  · refine (h.2.1 (by decide)).mpr
      ⟨("codex-a@b.json", .json (.obj [("access_token", .str "T")])), ?_, by decide⟩
    simp [c2fs]
  · exact (h.2.2.2 (by decide)).2 (by decide)

/-- A nonempty string stays nonempty under appending. -/
theorem strAppend_ne_empty (a b : String) (h : a ≠ "") : a ++ b ≠ "" := by
  intro hc
  apply h
  have h2 := congrArg String.data hc
  rw [String.data_append] at h2
  have h3 := List.append_eq_nil.mp h2
  cases a with
  | mk d =>
    cases h3.1
    rfl

/-- The Codex per-file loader never produces an empty error message. -/
theorem codexLoadCredentialFile_error_ne (homeDir : String) (fs : FS) (name : String)
    (e : String) (h : codexLoadCredentialFile homeDir fs name = .error e) : e ≠ "" := by
  unfold codexLoadCredentialFile at h
  split at h
  · cases h
    decide
  · split at h
    · cases h
      exact strAppend_ne_empty _ _ (by decide)
    · split at h
      · cases h
        decide
      · exact absurd h (by simp)

/-- The Claude per-file loader never produces an empty error message. -/
theorem claudeLoadCredentialFile_error_ne (homeDir : String) (fs : FS) (name : String)
    (e : String) (h : claudeLoadCredentialFile homeDir fs name = .error e) : e ≠ "" := by
  unfold claudeLoadCredentialFile at h
  split at h
  · cases h
    exact strAppend_ne_empty _ _ (by decide)
  · split at h
    · cases h
      exact strAppend_ne_empty _ _
        (strAppend_ne_empty _ _ (strAppend_ne_empty _ _ (by decide)))
    · split at h
      · cases h
        exact strAppend_ne_empty _ _
          (strAppend_ne_empty _ _ (strAppend_ne_empty _ _ (by decide)))
      · split at h
        · cases h
          decide
        · exact absurd h (by simp)

/-- Element view of the display-name pass. -/
theorem get_applyCodexDisplayNames (l : List CodexAccount) (i : Nat) (a : CodexAccount)
    (h : l.get? i = some a) :
    (applyCodexDisplayNames l).get? i
      = some { a with displayName := codexDisplayLabel l a } := by
  unfold applyCodexDisplayNames
  rw [List.get?_map, h]
  rfl

/-- C6: under the proxy source, loading returns exactly one account per
globbed file; a file that fails to load yields an account with a non-empty
load error, empty access token and filename-derived identity, while the
remaining files load normally. -/
theorem C6_load_returns_all_matches (homeDir : String) (fs : FS)
    (hdet : DetectCredentialSource homeDir fs = .sourceProxy) :
    ((codexLoadCredentials homeDir fs).1.length = (globProxy fs.proxy "codex-").length
      ∧ ∀ i name, (globProxy fs.proxy "codex-").get? i = some name →
          ∃ a, (codexLoadCredentials homeDir fs).1.get? i = some a
            ∧ (∀ e, codexLoadCredentialFile homeDir fs name = .error e →
                a.loadErr = e ∧ e ≠ "" ∧ a.token = ""
                ∧ a.email = extractEmailFromFilename name)
            ∧ (∀ b, codexLoadCredentialFile homeDir fs name = .ok b →
                a = { b with displayName := a.displayName } ∧ b.token ≠ ""))
    ∧ ((claudeLoadCredentials homeDir fs).1.length
          = (globProxy fs.proxy "claude-").length
      ∧ ∀ i name, (globProxy fs.proxy "claude-").get? i = some name →
          ∃ a, (claudeLoadCredentials homeDir fs).1.get? i = some a
            ∧ (∀ e, claudeLoadCredentialFile homeDir fs name = .error e →
                a.loadErr = e ∧ e ≠ "" ∧ a.accessToken = ""
                ∧ a.email = extractClaudeEmailFromFilename name)
            ∧ (∀ b, claudeLoadCredentialFile homeDir fs name = .ok b →
                a = b ∧ b.accessToken ≠ "")) := by
  have hpn : DetectCredentialSource homeDir fs ≠ .sourceNative := by
    rw [hdet]
    simp
  constructor
  · constructor
    · unfold codexLoadCredentials
      rw [if_neg hpn]
      simp [applyCodexDisplayNames]
    · intro i name hi
      unfold codexLoadCredentials
      rw [if_neg hpn]
      have hmap : ((globProxy fs.proxy "codex-").map (codexLoadOne homeDir fs)).get? i
          = some (codexLoadOne homeDir fs name) := by
        rw [List.get?_map, hi]
        rfl
      refine ⟨_, get_applyCodexDisplayNames _ i _ hmap, ?_, ?_⟩
      · intro e hf
        refine ⟨?_, codexLoadCredentialFile_error_ne homeDir fs name e hf, ?_, ?_⟩ <;>
          simp [codexLoadOne, hf]
      · intro b hf
        constructor
        · simp [codexLoadOne, hf]
        · exact (codexLoadCredentialFile_ok homeDir fs name b hf).2
  · constructor
    · unfold claudeLoadCredentials
      rw [if_neg hpn]
      by_cases hg : globProxy fs.proxy "claude-" = []
      · rw [if_pos hg, hg]
        rfl
      · rw [if_neg hg]
        simp
    · intro i name hi
      have hg : globProxy fs.proxy "claude-" ≠ [] := by
        intro h0
        rw [h0] at hi
        simp at hi
      unfold claudeLoadCredentials
      rw [if_neg hpn, if_neg hg]
      have hmap : ((globProxy fs.proxy "claude-").map (claudeLoadOne homeDir fs)).get? i
          = some (claudeLoadOne homeDir fs name) := by
        rw [List.get?_map, hi]
        rfl
      refine ⟨_, hmap, ?_, ?_⟩
      · intro e hf
        refine ⟨?_, claudeLoadCredentialFile_error_ne homeDir fs name e hf, ?_, ?_⟩ <;>
          simp [claudeLoadOne, hf]
      · intro b hf
        constructor
        · simp [claudeLoadOne, hf]
        · exact (claudeLoadCredentialFile_ok homeDir fs name b hf).2

/-- C6 witness: two codex files, one malformed, give two accounts. -/
theorem C6_load_returns_all_matches_witness :
    (codexLoadCredentials "h" c6fs).1.length = (globProxy c6fs.proxy "codex-").length
    ∧ (claudeLoadCredentials "h" c6fs).1.length
        = (globProxy c6fs.proxy "claude-").length :=
  ⟨(C6_load_returns_all_matches "h" c6fs (by decide)).1.1,
   (C6_load_returns_all_matches "h" c6fs (by decide)).2.1⟩

/-- C7 witness: the first loaded account of a concrete filesystem. -/
theorem C7_token_loadErr_exclusive_witness :
    ¬(((codexLoadCredentials "h" c2fs).1.get ⟨0, by decide⟩).token ≠ ""
      ∧ ((codexLoadCredentials "h" c2fs).1.get ⟨0, by decide⟩).loadErr ≠ "") :=
  (C7_token_loadErr_exclusive "h" c2fs).1 _ (List.get_mem _ _ _)

/-- C4: whenever the refresh HTTP exchange succeeds with a non-empty access
token, refreshAccessToken (Codex, and Gemini as cited) persists the rotated
tokens through the credential-file updater before returning success: a
missing credential path refuses with an error and no write; a persistence
error is propagated as the refresh's failure and the freshly obtained token
is not returned; and a returned success carries exactly the updater's
post-state, with the updater having succeeded. -/
theorem C4_refresh_persists_before_success
    (cacc : CodexAccount) (gacc : GeminiAccount)
    (nonce : String) (failStep : Option WriteStep) (nowStr expStr : String)
    (fs gfs : FSm)
    (cbody gbody : List Nat) (raw : JObj) (gresp : GeminiRefreshResponse)
    (ctok crt cid : String) (cexp : Int) (cr gr : FSm × Option String)
    (hcn : cacc.isNative = false) (hcr : cacc.refreshToken ≠ "")
    (hparse : parseJsonObjBytes cbody = .ok raw)
    (hct : ctok = stringFromMap raw ["access_token", "accessToken", "token"])
    (hctne : ctok ≠ "")
    (hcrt : crt = stringFromMap raw ["refresh_token", "refreshToken"])
    (hcid : cid = stringFromMap raw ["id_token", "idToken"])
    (hcexp : cexp = int64FromMap raw ["expires_in", "expiresIn"])
    (hcru : cr = updateCodexCredentialFile cacc.credentialPath ctok crt cid cexp
        nowStr expStr nonce failStep fs)
    (hgr : gacc.refreshToken ≠ "") (hgc : gacc.clientID ≠ "")
    (hgparse : decodeGeminiRefreshResponse gbody = .ok gresp)
    (hgtne : gresp.accessToken ≠ "")
    (hgru : gr = updateGeminiCredentialFile gacc.credentialPath gresp expStr nonce
        failStep gfs) :
    (cacc.credentialPath = "" →
      codexRefreshAccessToken cacc (.response 200 cbody) nonce failStep nowStr expStr fs
        = (.error (.msg "credential path not available for refresh"), fs, [.httpCall]))
    ∧ (cacc.credentialPath ≠ "" → ∀ e, cr.2 = some e →
      codexRefreshAccessToken cacc (.response 200 cbody) nonce failStep nowStr expStr fs
        = (.error (.msg e), cr.1, [.httpCall, .updaterCall]))
    ∧ (cacc.credentialPath ≠ "" → cr.2 = none →
      codexRefreshAccessToken cacc (.response 200 cbody) nonce failStep nowStr expStr fs
        = (.ok ctok, cr.1, [.httpCall, .updaterCall]))
    ∧ (gacc.credentialPath = "" →
      geminiRefreshAccessToken gacc (.response 200 gbody) nonce failStep expStr gfs
        = (.error (.msg "credential path not available for refresh"), gfs, [.httpCall]))
    ∧ (gacc.credentialPath ≠ "" → ∀ e, gr.2 = some e →
      geminiRefreshAccessToken gacc (.response 200 gbody) nonce failStep expStr gfs
        = (.error (.msg e), gr.1, [.httpCall, .updaterCall]))
    ∧ (gacc.credentialPath ≠ "" → gr.2 = none →
      geminiRefreshAccessToken gacc (.response 200 gbody) nonce failStep expStr gfs
        = (.ok gresp.accessToken, gr.1, [.httpCall, .updaterCall])) := by
  subst hct hcrt hcid hcexp hcru hgru
  refine ⟨?_, ?_, ?_, ?_, ?_, ?_⟩
  · intro hpath
    simp [codexRefreshAccessToken, hcn, hcr, hparse, hctne, hpath]
  · intro hpath e he
    simp [codexRefreshAccessToken, hcn, hcr, hparse, hctne, hpath, he]
  · intro hpath he
    simp [codexRefreshAccessToken, hcn, hcr, hparse, hctne, hpath, he]
  · intro hpath
    simp [geminiRefreshAccessToken, hgr, hgc, hgparse, hgtne, hpath]
  · intro hpath e he
    simp [geminiRefreshAccessToken, hgr, hgc, hgparse, hgtne, hpath, he]
  · intro hpath he
    simp [geminiRefreshAccessToken, hgr, hgc, hgparse, hgtne, hpath, he]

/-- C4 witness: concrete successful refreshes whose results are exactly the
updater's post-state and the rotated token. -/
theorem C4_refresh_persists_witness :
    codexRefreshAccessToken c4cacc (.response 200 c4cbody) "x" none "now" "exp" c3fs
      = (.ok "NEW",
         (updateCodexCredentialFile "h/cred.json" "NEW" "" "" 0 "now" "exp" "x"
            none c3fs).1,
         [.httpCall, .updaterCall])
    ∧ geminiRefreshAccessToken c4gacc (.response 200 c4gbody) "x" none "exp" c4gfs
      = (.ok c4gresp.accessToken,
         (updateGeminiCredentialFile "h/gem.json" c4gresp "exp" "x" none c4gfs).1,
         [.httpCall, .updaterCall]) := by
  have h := C4_refresh_persists_before_success c4cacc c4gacc "x" none "now" "exp"
    c3fs c4gfs
    c4cbody c4gbody [("access_token", Json.str "NEW")] c4gresp "NEW" "" "" 0
    (updateCodexCredentialFile "h/cred.json" "NEW" "" "" 0 "now" "exp" "x" none c3fs)
    (updateGeminiCredentialFile "h/gem.json" c4gresp "exp" "x" none c4gfs)
    (by decide) (by decide) rfl (by decide) (by decide) (by decide) (by decide)
    (by decide) rfl (by decide) (by decide) rfl (by decide) rfl
  exact ⟨h.2.2.1 (by decide) (by decide), h.2.2.2.2.2 (by decide) (by decide)⟩

/-- A Codex refresh performs at most one HTTP call and one updater call, and
never a quota call or a further refresh. -/
theorem codexRefresh_effects (acc : CodexAccount) (http : HttpOutcome) (nonce : String)
    (failStep : Option WriteStep) (nowStr expStr : String) (fs : FSm) :
    (codexRefreshAccessToken acc http nonce failStep nowStr expStr fs).2.2 = []
    ∨ (codexRefreshAccessToken acc http nonce failStep nowStr expStr fs).2.2 = [.httpCall]
    ∨ (codexRefreshAccessToken acc http nonce failStep nowStr expStr fs).2.2
        = [.httpCall, .updaterCall] := by
  unfold codexRefreshAccessToken
  repeat' ((try dsimp only); split)
  all_goals simp

/-- A Claude refresh performs at most one HTTP call and one updater call, and
never a quota call or a further refresh. -/
theorem claudeRefresh_effects (creds : ClaudeAuth) (http : HttpOutcome) (nonce : String)
    (failStep : Option WriteStep) (nowStr expStr : String) (fs : FSm) :
    (claudeRefreshAccessToken creds http nonce failStep nowStr expStr fs).2.2 = []
    ∨ (claudeRefreshAccessToken creds http nonce failStep nowStr expStr fs).2.2 = [.httpCall]
    ∨ (claudeRefreshAccessToken creds http nonce failStep nowStr expStr fs).2.2
        = [.httpCall, .updaterCall] := by
  unfold claudeRefreshAccessToken
  repeat' ((try dsimp only); split)
  all_goals simp

/-- A Gemini refresh performs at most one HTTP call and one updater call, and
never a quota call or a further refresh. -/
theorem geminiRefresh_effects (acc : GeminiAccount) (http : HttpOutcome) (nonce : String)
    (failStep : Option WriteStep) (expStr : String) (fs : FSm) :
    (geminiRefreshAccessToken acc http nonce failStep expStr fs).2.2 = []
    ∨ (geminiRefreshAccessToken acc http nonce failStep expStr fs).2.2 = [.httpCall]
    ∨ (geminiRefreshAccessToken acc http nonce failStep expStr fs).2.2
        = [.httpCall, .updaterCall] := by
  unfold geminiRefreshAccessToken
  repeat' ((try dsimp only); split)
  all_goals simp

/-- C5 counterexample: a Codex quota response with status 403 on an account
holding a non-empty refresh token is a terminal failure with no refresh
attempt, contradicting the claim that every vendor treats 403 like 401. -/
theorem C5_refresh_policy_counterexample :
    codexFetchAccountUsage c5acc (.response 403 []) (.response 200 []) (.response 200 [])
        "n" none "now" "exp" []
      = (.error (.statusErr 403 []), [], [.quotaCall])
    ∧ (codexFetchAccountUsage c5acc (.response 403 []) (.response 200 []) (.response 200 [])
        "n" none "now" "exp" []).2.2.count .refreshCall = 0
    ∧ c5acc.refreshToken ≠ "" :=
  ⟨rfl, rfl, by decide⟩

/-- C5 (amended): the refresh trigger is vendor-specific. Codex refreshes
only on 401: any other non-200 status (403 included) is terminal with the
status error and no refresh, while a 401 with a refresh token causes exactly
one refresh attempt and at most one retried quota call. Claude refreshes on
401 or 403 and any other non-200 status is terminal. Gemini refreshes only
on a 401 status; any other status is handled terminally by its finish step.
No vendor ever attempts a second refresh within one fetch. -/
theorem C5_refresh_policy_amended
    (cacc : CodexAccount) (aacc : ClaudeAuth) (gacc : GeminiAccount)
    (status : Nat) (body : List Nat) (q2 : QuotaOutcome) (http : HttpOutcome)
    (nonce : String) (failStep : Option WriteStep) (nowStr expStr : String) (fs : FSm)
    (htokc : cacc.token ≠ "") (hrtc : cacc.refreshToken ≠ "")
    (htoka : aacc.accessToken ≠ "") (hrta : aacc.refreshToken ≠ "")
    (htokg : gacc.token ≠ "") (hrtg : gacc.refreshToken ≠ "") :
    (status ≠ 200 → status ≠ 401 →
      codexFetchAccountUsage cacc (.response status body) q2 http nonce failStep
          nowStr expStr fs
        = (.error (.statusErr status (TruncateBody body 200)), fs, [.quotaCall]))
    ∧ ((codexFetchAccountUsage cacc (.response 401 body) q2 http nonce failStep
          nowStr expStr fs).2.2.count .refreshCall = 1
       ∧ (codexFetchAccountUsage cacc (.response 401 body) q2 http nonce failStep
          nowStr expStr fs).2.2.count .quotaCall ≤ 2)
    ∧ (status ≠ 200 → status ≠ 401 → status ≠ 403 →
      claudeFetchAccountUsage aacc (.response status body) q2 http nonce failStep
          nowStr expStr fs
        = (.error (.statusErr status (TruncateBody body 200)), fs, [.quotaCall]))
    ∧ (status = 401 ∨ status = 403 →
      (claudeFetchAccountUsage aacc (.response status body) q2 http nonce failStep
          nowStr expStr fs).2.2.count .refreshCall = 1
      ∧ (claudeFetchAccountUsage aacc (.response status body) q2 http nonce failStep
          nowStr expStr fs).2.2.count .quotaCall ≤ 2)
    ∧ (status ≠ 401 →
      geminiFetchAccountUsage gacc (.response status body) q2 http nonce failStep
          expStr fs
        = (geminiFinish gacc status body, fs, [.quotaCall]))
    ∧ ((geminiFetchAccountUsage gacc (.response 401 body) q2 http nonce failStep
          expStr fs).2.2.count .refreshCall = 1
       ∧ (geminiFetchAccountUsage gacc (.response 401 body) q2 http nonce failStep
          expStr fs).2.2.count .quotaCall ≤ 2) := by
  refine ⟨?_, ?_, ?_, ?_, ?_, ?_⟩
  · intro h200 h401
    simp [codexFetchAccountUsage, codexFetchUsageWithToken, htokc, h200, h401]
  · have heff := codexRefresh_effects cacc http nonce failStep nowStr expStr fs
    rcases hres : codexRefreshAccessToken cacc http nonce failStep nowStr expStr fs
      with ⟨r, fs2, eff⟩
    rw [hres] at heff
    dsimp only at heff
    have h1 : codexFetchUsageWithToken (.response 401 body)
        = .error (.statusErr 401 (TruncateBody body 200)) := by
      simp [codexFetchUsageWithToken]
    simp only [codexFetchAccountUsage, h1]
    rw [if_neg htokc]
    simp only [hres]
    cases r with
    | error re =>
      rcases heff with h | h | h <;> subst h <;> simp [hrtc]
    | ok tok =>
      cases hq2 : codexFetchUsageWithToken q2 with
      | error e2 =>
        simp only [hq2]
        rcases heff with h | h | h <;> subst h <;> simp [hrtc]
      | ok resp =>
        simp only [hq2]
        rcases heff with h | h | h <;> subst h <;> simp [hrtc]
  · intro h200 h401 h403
    simp [claudeFetchAccountUsage, claudeFetchUsageFromAPI, htoka, h200, h401, h403]
  · intro hc
    have heff := claudeRefresh_effects aacc http nonce failStep nowStr expStr fs
    rcases hres : claudeRefreshAccessToken aacc http nonce failStep nowStr expStr fs
      with ⟨r, fs2, eff⟩
    rw [hres] at heff
    dsimp only at heff
    rcases hc with h | h
    · subst h
      have h1 : claudeFetchUsageFromAPI (.response 401 body)
          = .error (.statusErr 401 (TruncateBody body 200)) := by
        simp [claudeFetchUsageFromAPI]
      simp only [claudeFetchAccountUsage, h1]
      rw [if_neg htoka]
      simp only [hres]
      cases r with
      | error re =>
        rcases heff with h | h | h <;> subst h <;> simp [hrta]
      | ok tok =>
        cases hq2 : claudeFetchUsageFromAPI q2 with
        | error e2 =>
          simp only [hq2]
          rcases heff with h | h | h <;> subst h <;> simp [hrta]
        | ok resp =>
          simp only [hq2]
          rcases heff with h | h | h <;> subst h <;> simp [hrta]
    · subst h
      have h1 : claudeFetchUsageFromAPI (.response 403 body)
          = .error (.statusErr 403 (TruncateBody body 200)) := by
        simp [claudeFetchUsageFromAPI]
      simp only [claudeFetchAccountUsage, h1]
      rw [if_neg htoka]
      simp only [hres]
      cases r with
      | error re =>
        rcases heff with h | h | h <;> subst h <;> simp [hrta]
      | ok tok =>
        cases hq2 : claudeFetchUsageFromAPI q2 with
        | error e2 =>
          simp only [hq2]
          rcases heff with h | h | h <;> subst h <;> simp [hrta]
        | ok resp =>
          simp only [hq2]
          rcases heff with h | h | h <;> subst h <;> simp [hrta]
  · intro h401
    simp [geminiFetchAccountUsage, htokg, h401]
  · have heff := geminiRefresh_effects gacc http nonce failStep expStr fs
    rcases hres : geminiRefreshAccessToken gacc http nonce failStep expStr fs
      with ⟨r, fs2, eff⟩
    rw [hres] at heff
    dsimp only at heff
    simp only [geminiFetchAccountUsage]
    rw [if_neg htokg]
    simp only [hres]
    cases r with
    | error re =>
      rcases heff with h | h | h <;> subst h <;> simp [hrtg]
    | ok tok =>
      cases q2 with
      | netErr e =>
        rcases heff with h | h | h <;> subst h <;> simp [hrtg]
      | readErr e =>
        rcases heff with h | h | h <;> subst h <;> simp [hrtg]
      | response st2 b2 =>
        rcases heff with h | h | h <;> subst h <;> simp [hrtg]

/-- C5 witness: the amended policy at concrete inputs — Codex at 401 refreshes
exactly once, and Gemini at 404 is terminal via its finish step. -/
theorem C5_refresh_policy_amended_witness :
    (codexFetchAccountUsage c5acc (.response 401 [99]) (.response 500 []) (.netErr "x")
        "n" none "now" "exp" []).2.2.count .refreshCall = 1
    ∧ geminiFetchAccountUsage c5gacc (.response 404 [99]) (.response 500 []) (.netErr "x")
        "n" none "exp" []
      = (geminiFinish c5gacc 404 [99], [], [.quotaCall]) := by
  have h := C5_refresh_policy_amended c5acc c5aacc c5gacc 404 [99] (.response 500 [])
    (.netErr "x") "n" none "now" "exp" []
    (by decide) (by decide) (by decide) (by decide) (by decide) (by decide)
  exact ⟨h.2.1.1, h.2.2.2.2.1 (by decide)⟩

/-- C9 counterexample: a Claude quota call that terminates in Ok with an
empty response (`\x7b\x7d`: both windows absent) yields zero rows and no
warning row, contradicting the claim that an empty result set is reported as
a warning for every vendor. -/
theorem C9_rows_per_window_counterexample :
    claudeFetchAccountUsage c5aacc (.response 200 [123, 125]) (.response 500 [])
        (.netErr "x") "n" none "now" "exp" []
      = (.ok [], [], [.quotaCall]) :=
  rfl

/-- C9 (amended): a quota call that terminates in Ok yields one usage row per
window/bucket the vendor response contains, but the empty-result warning is
Gemini-specific. Claude returns one row per present window and silently
returns zero rows when both windows are absent; Gemini returns one row per
bucket and substitutes a single warning row when the bucket list is empty. -/
theorem C9_rows_per_window_amended
    (aacc : ClaudeAuth) (gacc : GeminiAccount) (q2 : QuotaOutcome) (http : HttpOutcome)
    (nonce : String) (failStep : Option WriteStep) (nowStr expStr : String) (fs gfs : FSm)
    (abody gbody : List Nat) (resp : ClaudeUsageResponse) (buckets : List GeminiBucket)
    (htoka : aacc.accessToken ≠ "")
    (hdeca : decodeClaudeUsageResponse abody = .ok resp)
    (htokg : gacc.token ≠ "")
    (hdecg : decodeGeminiQuotaResponse gbody = .ok buckets) :
    (claudeFetchAccountUsage aacc (.response 200 abody) q2 http nonce failStep
        nowStr expStr fs
      = (.ok (claudeParseUsageResponse resp (claudeProviderName aacc)), fs, [.quotaCall]))
    ∧ (claudeParseUsageResponse resp (claudeProviderName aacc)).length
        = (match resp.fiveHour with | none => 0 | some _ => 1)
          + (match resp.sevenDay with | none => 0 | some _ => 1)
    ∧ (resp.fiveHour = none → resp.sevenDay = none →
        claudeParseUsageResponse resp (claudeProviderName aacc) = [])
    ∧ (geminiFetchAccountUsage gacc (.response 200 gbody) q2 http nonce failStep
        expStr gfs
      = (geminiFinish gacc 200 gbody, gfs, [.quotaCall]))
    ∧ (buckets = [] →
        geminiFinish gacc 200 gbody
          = .ok [{ provider := "Gemini (" ++ gacc.email ++ ")", isWarning := true,
                   warningMsg := "Empty buckets array in response" }])
    ∧ (buckets ≠ [] →
        geminiFinish gacc 200 gbody = .ok (buckets.map (geminiRowForBucket gacc.email))
        ∧ (buckets.map (geminiRowForBucket gacc.email)).length = buckets.length) := by
  refine ⟨?_, ?_, ?_, ?_, ?_, ?_⟩
  · simp [claudeFetchAccountUsage, claudeFetchUsageFromAPI, htoka, hdeca]
  · cases h5 : resp.fiveHour <;> cases h7 : resp.sevenDay <;>
      simp [claudeParseUsageResponse, h5, h7] <;>
      (repeat' split) <;> simp
  · intro h5 h7
    simp [claudeParseUsageResponse, h5, h7]
  · simp [geminiFetchAccountUsage, htokg]
  · intro h
    subst h
    simp [geminiFinish, hdecg]
  · intro h
    cases buckets with
    | nil => exact absurd rfl h
    | cons b bs =>
      refine ⟨?_, by simp⟩
      simp [geminiFinish, hdecg]

/-- C9 witness: a Claude Ok with the empty response yields the (empty) parsed
rows, and a Gemini Ok with an empty bucket list yields the single warning
row. -/
theorem C9_rows_per_window_amended_witness :
    claudeFetchAccountUsage c5aacc (.response 200 [123, 125]) (.response 500 [])
        (.netErr "x") "n" none "now" "exp" []
      = (.ok (claudeParseUsageResponse {} (claudeProviderName c5aacc)), [], [.quotaCall])
    ∧ geminiFinish c5gacc 200 c9gbody
      = .ok [{ provider := "Gemini (" ++ c5gacc.email ++ ")", isWarning := true,
               warningMsg := "Empty buckets array in response" }] := by
  have h := C9_rows_per_window_amended c5aacc c5gacc (.response 500 []) (.netErr "x")
    "n" none "now" "exp" [] [] [123, 125] c9gbody {} []
    (by decide) rfl (by decide) rfl
  exact ⟨h.1, h.2.2.2.2.1 rfl⟩

end Aim
